import Mathlib

set_option maxHeartbeats 1000000
set_option maxRecDepth 4000

/- The Batteries rational arithmetic kernels are irreducible by default,
which blocks kernel evaluation of concrete states in witnesses and
counterexamples; restore the ordinary reducibility of these pure functions. -/
set_option allowUnsafeReducibility true in
attribute [semireducible] Rat.mul Rat.add Rat.sub Rat.div Rat.neg Rat.inv

/-!
Verification model of the VoxelEngine simulation core
(src/unnamed/part_001, class VoxelEngine).

Modelling conventions:
* JS numbers are IEEE doubles; every double value is a rational number, so the
  state carries exact rationals (ℚ) and the source's +, -, *, /, min, max,
  comparisons are modelled exactly.
* The transcendental / library primitives that the engine calls
  (THREE.Vector3.distanceTo, THREE.Vector3.normalize, Math.sin, Math.cos,
  Math.atan2, Math.PI, and the while-loop angle normalisation) return doubles,
  i.e. rationals, whose exact values the simulation logic never branches on in
  a way the claims depend on.  They are modelled as an uninterpreted oracle
  record Env; theorems quantified over every Env hold in particular for the
  oracle realised by the actual IEEE implementations.
* Math.random() is modelled as an injectable stream of rationals (a list that
  is consumed draw by draw), exactly the seedable source the specification
  itself demands in its concurrency section.
* Purely visual/audio effects (mesh colour flashes, setTimeout colour restore,
  ambient particles, camera, renderer, sfx synthesis parameters) are either
  dropped (when they touch no simulation state read later) or recorded as
  emitted events in an event list, mirroring the side-effect notifications of
  the specification.
-/

namespace Voxel

/-- 3D vector over ℚ (models THREE.Vector3 as used by the simulation). -/
structure Vec3 where
  x : ℚ
  y : ℚ
  z : ℚ
deriving DecidableEq

instance : Add Vec3 := ⟨fun a b => ⟨a.x + b.x, a.y + b.y, a.z + b.z⟩⟩
instance : Sub Vec3 := ⟨fun a b => ⟨a.x - b.x, a.y - b.y, a.z - b.z⟩⟩

def Vec3.zero : Vec3 := ⟨0, 0, 0⟩

/-- v.multiplyScalar(s). -/
def Vec3.scale (s : ℚ) (v : Vec3) : Vec3 := ⟨s * v.x, s * v.y, s * v.z⟩

/-- Squared euclidean norm.  The source only ever tests length() > c with
c ≥ 0; length() > 0 is exactly sqNorm > 0 and length() > 1/2 is exactly
sqNorm > 1/4, so the model uses the squared form (exact over ℚ). -/
def sqNorm (v : Vec3) : ℚ := v.x * v.x + v.y * v.y + v.z * v.z

/-- THREE.MathUtils.lerp(a, b, t) = a + (b - a) * t. -/
def lerp (a b t : ℚ) : ℚ := a + (b - a) * t

/-- THREE.Vector3.lerp(target, s): componentwise lerp. -/
def lerpV (a b : Vec3) (s : ℚ) : Vec3 :=
  ⟨lerp a.x b.x s, lerp a.y b.y s, lerp a.z b.z s⟩

/-- One draw from the injectable Math.random() stream (default 0 when the
stream is exhausted; claims never depend on that corner). -/
def drawRand : List ℚ → ℚ × List ℚ
  | [] => (0, [])
  | r :: rs => (r, rs)

/-- Oracle for the real-valued library primitives (see file header). -/
structure Env where
  dist : Vec3 → Vec3 → ℚ
  normalize : Vec3 → Vec3
  sin : ℚ → ℚ
  cos : ℚ → ℚ
  atan2 : ℚ → ℚ → ℚ
  pi : ℚ
  wrap : ℚ → ℚ

/-- String.prototype.toLowerCase (ASCII, as the class names use). -/
def strLower (s : String) : String := String.mk (s.data.map Char.toLower)

/-- pat occurs at the front of hay. -/
def frontMatch : List Char → List Char → Bool
  | [], _ => true
  | _ :: _, [] => false
  | a :: as, b :: bs => a == b && frontMatch as bs

/-- String.prototype.includes: pat occurs somewhere in hay. -/
def subMatch (hay : List Char) (pat : List Char) : Bool :=
  match hay with
  | [] => frontMatch pat []
  | _ :: rest => frontMatch pat hay || subMatch rest pat

/-- s.includes(pat) on strings. -/
def strIncl (s pat : String) : Bool := subMatch s.data pat.data

/-- '#' + n.toString(16).padStart(6, '0')  (loot pickup particle colour). -/
def hexColor (n : Nat) : String :=
  let ds := Nat.toDigits 16 n
  let pad := List.replicate (6 - ds.length) '0'
  String.mk ('#' :: (pad ++ ds))

inductive EntityType where
  | player
  | npc
  | enemy
deriving DecidableEq

inductive TerrainClass where
  | safe
  | hostile
deriving DecidableEq

inductive BuffType where
  | power
  | speed
  | defense
deriving DecidableEq

/-- Buff from ../types: { type, amount, endTime }. -/
structure Buff where
  btype : BuffType
  amount : ℚ
  endTime : ℚ
deriving DecidableEq

/-- EntityStats from ../types (skills and description carry no simulation
state and are dropped; class is renamed className, a Lean keyword clash). -/
structure EntityStats where
  hp : ℚ
  maxHp : ℚ
  speed : ℚ
  power : ℚ
  defense : ℚ
  className : String
  isRanged : Bool
  buffs : List Buff
deriving DecidableEq

/-- GameEntity from ../types plus the dynamic fields the engine adds
(staggerPoints, staggerEndTime).  Optional JS fields are Options; the mesh
render handle is reduced to its presence (hasMesh) and its rotation
(meshRotation), the only parts the simulation reads back. -/
structure GameEntity where
  id : String
  etype : EntityType
  position : Vec3
  spawnPosition : Option Vec3
  patrolTarget : Option Vec3
  waitTimer : Option ℚ
  lastAttackTime : Option ℚ
  rotation : ℚ
  stats : EntityStats
  isDead : Bool
  hasMesh : Bool
  meshRotation : Vec3
  staggerPoints : Option ℚ
  staggerEndTime : Option ℚ
deriving DecidableEq

inductive LootType where
  | health
  | buff
  | material
deriving DecidableEq

/-- LootItem from ../types. -/
structure LootItem where
  name : String
  ltype : LootType
  subType : Option BuffType
  value : ℚ
  color : Nat
deriving DecidableEq

/-- LootEntity: id, item, position (mesh/light are render handles; the
position is shared with the mesh in the source, so the floating animation
moves it and the model keeps it). -/
structure LootEntity where
  id : String
  item : LootItem
  position : Vec3
deriving DecidableEq

/-- Side-effect notifications (playSfx, spawnImpactParticles, spawnStunStars,
playSkillVFX, onLootPickup). -/
inductive GameEvent where
  | sfx (kind : String)
  | impact (pos : Vec3) (color : String) (count : Nat)
  | stunStars (id : String) (duration : ℚ)
  | skillVFX (startP : Vec3) (endP : Vec3) (color : String) (kind : String)
  | lootPickup (item : LootItem)
deriving DecidableEq

/-- The engine's simulation-relevant mutable fields.  entities and
lootEntities model the two JS Maps as insertion-ordered lists with unique
ids; playerId models the playerEntity alias (set when a player is spawned). -/
structure EngineState where
  entities : List GameEntity
  lootEntities : List LootEntity
  playerId : Option String
  inputDirection : Vec3
  playerVelocity : Vec3
  cameraYaw : ℚ
  shakeIntensity : ℚ
deriving DecidableEq

/-- State threaded through a tick: engine state, the injectable random
stream, and the accumulated side-effect events. -/
structure Tick where
  st : EngineState
  rng : List ℚ
  evs : List GameEvent
deriving DecidableEq

/-- this.entities.get(id). -/
def lookupEntity (st : EngineState) (id : String) : Option GameEntity :=
  st.entities.find? (fun e => e.id == id)

/-- In-place mutation of the entity object obtained from the map: the map
entry with the same id is replaced by the mutated entity. -/
def setEntity (st : EngineState) (e : GameEntity) : EngineState :=
  { st with entities := st.entities.map (fun x => if x.id == e.id then e else x) }

/-- this.playerEntity (the alias resolves through the registry). -/
def playerOf (st : EngineState) : Option GameEntity :=
  match st.playerId with
  | none => none
  | some i => lookupEntity st i

def lookupLoot (st : EngineState) (id : String) : Option LootEntity :=
  st.lootEntities.find? (fun l => l.id == id)

def setLoot (st : EngineState) (l : LootEntity) : EngineState :=
  { st with lootEntities := st.lootEntities.map (fun x => if x.id == l.id then l else x) }

/-- this.lootEntities.delete(id). -/
def removeLoot (st : EngineState) (id : String) : EngineState :=
  { st with lootEntities := st.lootEntities.filter (fun x => !(x.id == id)) }

/-- JS (x || 0) on an optional numeric field. -/
def orQ : Option ℚ → ℚ
  | none => 0
  | some q => q

/-- getHeight (lines 211-217): two sinusoidal layers, 1.8x amplification on
hostile terrain. -/
def getHeight (env : Env) (x z : ℚ) (tc : TerrainClass) : ℚ :=
  let scale : ℚ := 2 / 25
  let h := env.sin (x * scale) * env.cos (z * scale) * 4
    + env.sin (x * scale * 2) * (3 / 2)
  if tc = TerrainClass.hostile then h * (9 / 5) else h

/-- The fixed 5-entry LOOT_ITEMS catalog (lines 15-21). -/
def lootCatalog : List LootItem :=
  [ ⟨"Ancient Vitality", LootType.health, none, 40, 0xff3344⟩,
    ⟨"Essence of Might", LootType.buff, some BuffType.power, 10, 0xffaa00⟩,
    ⟨"Vortex Shard", LootType.buff, some BuffType.speed, 8, 0x00ccff⟩,
    ⟨"Ironwill Core", LootType.buff, some BuffType.defense, 15, 0xaaaaaa⟩,
    ⟨"Stardust Scrap", LootType.material, none, 1, 0xeeccff⟩ ]

/-- spawnLoot (lines 525-547): pick a catalog entry from the random draw
(Math.floor(random * 5); a genuine Math.random draw lies in [0,1) so the
index is always in range, out-of-range oracle draws fall back to the list
default), a fresh random id, and place the loot 2 above the given position. -/
def spawnLootAt (r2 r3 : ℚ) (pos : Vec3) (st : EngineState) : EngineState :=
  let idx := (⌊r2 * 5⌋ : ℤ).toNat
  let itemData := lootCatalog.getD idx ⟨"", LootType.material, none, 0, 0⟩
  let item : LootItem := { itemData with }
  let lootId := toString r3
  let lpos : Vec3 := ⟨pos.x, pos.y + 2, pos.z⟩
  { st with lootEntities := st.lootEntities ++ [⟨lootId, { item with }, lpos⟩] }

/-- isStaggered test of damageEntity (line 458):
e.type === 'enemy' && (e.staggerEndTime || 0) > now. -/
def isStagOf (now : ℚ) (e : GameEntity) : Bool :=
  decide (e.etype = EntityType.enemy) && decide (now < orQ e.staggerEndTime)

/-- effective damage (lines 461-462):
max(1, amount * (isStaggered ? 1.5 : 1.0) - defense * 0.2). -/
def effDamage (now : ℚ) (e : GameEntity) (amount : ℚ) : ℚ :=
  let multiplier : ℚ := if isStagOf now e then 3 / 2 else 1
  max 1 (amount * multiplier - e.stats.defense * (1 / 5))

/-- stagger threshold (line 472): maxHp * 0.25 + defense * 0.5. -/
def staggerThreshold (e : GameEntity) : ℚ :=
  e.stats.maxHp * (1 / 4) + e.stats.defense * (1 / 2)

/-- The stagger trigger condition of damageEntity (line 474):
staggerPoints (after the addition of line 470) reached the threshold and the
target was not already staggered.  The source evaluates threshold and points
on the object whose hp was just lowered; hp feeds neither, so the test is
written on the pre-damage entity with the same value. -/
def staggerTrig (now amount : ℚ) (e : GameEntity) : Bool :=
  decide (e.etype = EntityType.enemy)
  && decide (staggerThreshold e ≤ orQ e.staggerPoints + effDamage now e amount)
  && !(isStagOf now e)

/-- Death test of damageEntity (line 509) on the post-damage hp. -/
def deadAfter (now amount : ℚ) (e : GameEntity) : Bool :=
  decide (e.stats.hp - effDamage now e amount ≤ 0)

/-- The accumulated in-place mutations damageEntity applies to the target
object (lines 464, 470-477, 509-510): hp loss, stagger accumulation or
trigger, death flag. -/
def damagedEntity (now amount : ℚ) (e : GameEntity) : GameEntity :=
  let damage := effDamage now e amount
  let e1 : GameEntity := { e with stats := { e.stats with hp := e.stats.hp - damage } }
  let e2 : GameEntity :=
    if e.etype = EntityType.enemy then
      (if staggerTrig now amount e then
        { e1 with staggerEndTime := some (now + 2), staggerPoints := some 0 }
      else
        { e1 with staggerPoints := some (orQ e.staggerPoints + damage) })
    else e1
  if deadAfter now amount e then { e2 with isDead := true } else e2

/-- Event trail of one damageEntity call, in source order: damage sfx
(line 466), stagger sfx / burst / stun stars on trigger (lines 478-480),
red impact burst (line 496), white death burst (line 511). -/
def damageEvents (now amount : ℚ) (e : GameEntity) : List GameEvent :=
  [GameEvent.sfx "damage"]
  ++ (if staggerTrig now amount e then
        [GameEvent.sfx "stagger", GameEvent.impact e.position "#ffff00" 12,
         GameEvent.stunStars e.id 2]
      else [])
  ++ [GameEvent.impact e.position "#ff3300" 8]
  ++ (if deadAfter now amount e then [GameEvent.impact e.position "#ffffff" 20] else [])

/-- damageEntity (lines 452-515).  The source mutates the entity object in
place; the model accumulates the mutations (damagedEntity) and writes the
final entity back once.  Colour flashes and the setTimeout colour restore
are render-only and dropped; sfx / particle / stun-star calls become events;
the death branch runs handleEnemyDeath (60% loot roll, lines 517-523) off
the random stream. -/
def damageEntity (now : ℚ) (id : String) (amount : ℚ) (t : Tick) : Tick :=
  match lookupEntity t.st id with
  | none => t
  | some e =>
    if e.isDead then t
    else if !e.hasMesh then t
    else
      let e3 := damagedEntity now amount e
      let evs := t.evs ++ damageEvents now amount e
      let st1 := setEntity t.st e3
      let st2 := { st1 with shakeIntensity := if id = "player" then 3 / 2 else 3 / 5 }
      if deadAfter now amount e && decide (e.etype = EntityType.enemy) then
        let d1 := drawRand t.rng
        if decide (d1.1 < 3 / 5) then
          let d2 := drawRand d1.2
          let d3 := drawRand d2.2
          { st := spawnLootAt d2.1 d3.1 e3.position st2, rng := d3.2, evs := evs }
        else { st := st2, rng := d1.2, evs := evs }
      else { st := st2, rng := t.rng, evs := evs }

/-- The non-dead-enemy filter of getNearestHostile and updateAI. -/
def hostileQual (e : GameEntity) : Bool :=
  decide (e.etype = EntityType.enemy) && !e.isDead

/-- The body of the getNearestHostile scan (lines 596-601). -/
def nearestStep (env : Env) (p : GameEntity) (acc : Option GameEntity × ℚ)
    (e : GameEntity) : Option GameEntity × ℚ :=
  if hostileQual e then
    let d := env.dist e.position p.position
    if decide (d < acc.2) then (some e, d) else acc
  else acc

/-- getNearestHostile (lines 592-603): linear scan over the registry keeping
the strictly closest non-dead enemy below range. -/
def getNearestHostile (env : Env) (range : ℚ) (st : EngineState) : Option GameEntity :=
  match playerOf st with
  | none => none
  | some p =>
    (st.entities.foldl (nearestStep env p) ((none : Option GameEntity), range)).1

/-- Floating animation part of updateLoot (lines 554-556); the mesh rotation
is render-only, but loot.position is the mesh position object, so the y bob
moves the position used by the pickup distance check. -/
def lootFloat (env : Env) (now : ℚ) (l : LootEntity) : LootEntity :=
  { l with position := { l.position with y := l.position.y + env.sin (now * 3) * (1 / 100) } }

/-- The stat application of collectLoot (lines 573-583): health items heal
up to the maxHp cap, buff items with a sub-kind append a 30-second Buff,
anything else (materials, malformed buffs) leaves the player unchanged. -/
def collectPlayer (now : ℚ) (l : LootEntity) (p : GameEntity) : GameEntity :=
  if l.item.ltype = LootType.health then
    { p with stats := { p.stats with
        hp := min p.stats.maxHp (p.stats.hp + l.item.value) } }
  else
    match l.item.ltype, l.item.subType with
    | LootType.buff, some s =>
      { p with stats := { p.stats with
          buffs := p.stats.buffs ++ [⟨s, l.item.value, now + 30⟩] } }
    | _, _ => p

/-- collectLoot (lines 566-590): pickup sfx and burst, stat application by
item kind, onLootPickup notification, loot removal. -/
def collectLoot (now : ℚ) (l : LootEntity) (t : Tick) : Tick :=
  match playerOf t.st with
  | none => t
  | some p =>
    let evs := t.evs ++ [GameEvent.sfx "pickup",
      GameEvent.impact l.position (hexColor l.item.color) 15]
    let p' := collectPlayer now l p
    let evs := evs ++ [GameEvent.lootPickup l.item]
    { t with st := removeLoot (setEntity t.st p') l.id, evs := evs }

/-- One loot entry of the updateLoot loop (lines 552-563): float animation,
then pickup when the distance to the player is below 4. -/
def updateLootStep (env : Env) (now : ℚ) (i : String) (t : Tick) : Tick :=
  match lookupLoot t.st i with
  | none => t
  | some l0 =>
    let l := lootFloat env now l0
    let t1 : Tick := { t with st := setLoot t.st l }
    match playerOf t1.st with
    | none => t1
    | some p =>
      if decide (env.dist l.position p.position < 4) then collectLoot now l t1
      else t1

/-- updateLoot (lines 549-564): no-op without a player, otherwise one pass
over the loot registry in insertion order.  delta only feeds the render-only
mesh rotation and is unused by the simulation state. -/
def updateLoot (env : Env) (now _delta : ℚ) (t : Tick) : Tick :=
  match playerOf t.st with
  | none => t
  | some _ =>
    (t.st.lootEntities.map (fun l => l.id)).foldl
      (fun acc i => updateLootStep env now i acc) t

/-- The five mutually exclusive per-enemy behavior modes. -/
inductive AIMode where
  | staggered
  | flee
  | chase
  | attack
  | patrol
deriving DecidableEq

/-- The behavior branch chain of updateAI (lines 622-662 structure):
staggered early-return, then the if / else-if chain on hp fraction and
distance. -/
def aiMode (isStag : Bool) (hpPercent dist : ℚ) : AIMode :=
  if isStag then AIMode.staggered
  else if hpPercent < 3 / 10 ∧ dist < 20 then AIMode.flee
  else if dist < 45 ∧ dist > 10 then AIMode.chase
  else if dist ≤ 10 then AIMode.attack
  else AIMode.patrol

/-- The per-mode speed multiplier the branch chain assigns
(lines 645, 648, 661, 684). -/
def modeSpeedMult : AIMode → ℚ
  | AIMode.staggered => 1
  | AIMode.flee => 7 / 5
  | AIMode.chase => 11 / 10
  | AIMode.attack => 3 / 10
  | AIMode.patrol => 1 / 2

/-- Stagger point decay (lines 617-619). -/
def staggerDecay (delta : ℚ) (e : GameEntity) : GameEntity :=
  if 0 < orQ e.staggerPoints then
    { e with staggerPoints := some (max 0 (orQ e.staggerPoints - delta * 15)) }
  else e

/-- Rotation reset when no longer staggered (lines 632-635). -/
def rotReset (e : GameEntity) : GameEntity :=
  { e with meshRotation := { e.meshRotation with
      x := lerp e.meshRotation.x 0 (1 / 10),
      z := lerp e.meshRotation.z 0 (1 / 10) } }

/-- Movement block of updateAI (lines 688-700): applied when moveDir is
non-zero; speed falls back to 8 when stats.speed is falsy (JS || 8). -/
def aiApplyMove (env : Env) (delta : ℚ) (moveDir : Vec3) (speedMult : ℚ)
    (e : GameEntity) : GameEntity :=
  if decide (0 < sqNorm moveDir) then
    let speed := (if e.stats.speed = 0 then 8 else e.stats.speed) * speedMult
    let p1 := e.position + Vec3.scale (speed * delta) moveDir
    let p2 : Vec3 := { p1 with y := lerp p1.y (getHeight env p1.x p1.z TerrainClass.hostile) (1 / 5) }
    let targetRot := env.atan2 moveDir.x moveDir.z
    let diff := env.wrap (targetRot - e.meshRotation.y)
    let ry := e.meshRotation.y + diff * (1 / 10)
    { e with position := p2,
             meshRotation := { e.meshRotation with y := ry },
             rotation := ry }
  else e

/-- Body of the per-enemy updateAI loop (lines 613-701), for the registry
entry with the given id.  Non-enemies, dead entities and meshless entities
are skipped; the staggered early return only plays the sway animation; the
attack branch calls damageEntity on the player exactly as the source does. -/
def updateAIEntity (env : Env) (now delta : ℚ) (i : String) (t : Tick) : Tick :=
  match lookupEntity t.st i, playerOf t.st with
  | some e, some p =>
    if decide (e.etype = EntityType.enemy) && !e.isDead && e.hasMesh then
      let e1 := staggerDecay delta e
      let stag := decide (now < orQ e1.staggerEndTime)
      let d := env.dist e1.position p.position
      let hpP := e1.stats.hp / e1.stats.maxHp
      let e2 := rotReset e1
      match aiMode stag hpP d with
      | AIMode.staggered =>
        let e3 : GameEntity := { e1 with meshRotation :=
          ⟨env.sin (now * 12) * (3 / 20),
           e1.meshRotation.y + delta * (1 / 2),
           env.cos (now * 10) * (3 / 20)⟩ }
        { t with st := setEntity t.st e3 }
      | AIMode.flee =>
        let e3 := aiApplyMove env delta (env.normalize (e2.position - p.position))
          (modeSpeedMult AIMode.flee) e2
        { t with st := setEntity t.st e3 }
      | AIMode.chase =>
        let e3 := aiApplyMove env delta (env.normalize (p.position - e2.position))
          (modeSpeedMult AIMode.chase) e2
        { t with st := setEntity t.st e3 }
      | AIMode.attack =>
        let act :=
          if decide (3 / 2 < now - orQ e2.lastAttackTime) then
            let ranged := e2.stats.isRanged
              || strIncl (strLower e2.stats.className) "mage"
              || strIncl (strLower e2.stats.className) "archer"
            let tD :=
              if ranged then
                let evs := t.evs ++ [GameEvent.sfx "ranged",
                  GameEvent.skillVFX (e2.position + ⟨0, 4, 0⟩) (p.position + ⟨0, 4, 0⟩)
                    "#ff4400" "ranged"]
                damageEntity now "player" (e2.stats.power * (1 / 2)) { t with evs := evs }
              else if decide (d ≤ 6) then
                damageEntity now "player" (e2.stats.power * (4 / 5)) t
              else t
            (tD, { e2 with lastAttackTime := some now })
          else (t, e2)
        let e3 := aiApplyMove env delta (env.normalize (p.position - e2.position))
          (modeSpeedMult AIMode.attack) act.2
        { act.1 with st := setEntity act.1.st e3 }
      | AIMode.patrol =>
        let spawnPos := e2.spawnPosition.getD e2.position
        if decide (0 < orQ e2.waitTimer) then
          let e3 : GameEntity := { e2 with waitTimer := some (orQ e2.waitTimer - delta) }
          { t with st := setEntity t.st e3 }
        else
          let needNew : Bool :=
            match e2.patrolTarget with
            | none => true
            | some pt => decide (env.dist e2.position pt < 3 / 2)
          let pick :=
            if needNew then
              let d1 := drawRand t.rng
              if decide (d1.1 < 7 / 10) then
                let d2 := drawRand d1.2
                let d3 := drawRand d2.2
                let angle := d2.1 * env.pi * 2
                let rad := d3.1 * 25
                let px := spawnPos.x + env.cos angle * rad
                let pz := spawnPos.z + env.sin angle * rad
                let pt : Vec3 := ⟨px, getHeight env px pz TerrainClass.hostile, pz⟩
                (({ e2 with patrolTarget := some pt } : GameEntity), d3.2)
              else
                let d2 := drawRand d1.2
                (({ e2 with waitTimer := some (2 + d2.1 * 3) } : GameEntity), d2.2)
            else (e2, t.rng)
          let e3 := pick.1
          let e4 :=
            match e3.patrolTarget, decide (orQ e3.waitTimer ≤ 0) with
            | some pt, true =>
              aiApplyMove env delta (env.normalize (pt - e3.position))
                (modeSpeedMult AIMode.patrol) e3
            | _, _ => e3
          { t with st := setEntity t.st e4, rng := pick.2 }
    else t
  | _, _ => t

/-- updateAI (lines 609-702): the whole pass is skipped when there is no
player or the player is dead; otherwise every registry entry is processed in
insertion order. -/
def updateAI (env : Env) (now delta : ℚ) (t : Tick) : Tick :=
  match playerOf t.st with
  | none => t
  | some p =>
    if p.isDead then t
    else (t.st.entities.map (fun e => e.id)).foldl
      (fun acc i => updateAIEntity env now delta i acc) t

/-- Per-buff sum of the speed bonuses (lines 714-722; the power and defense
sums are computed by the source but read by nothing in this method, so only
the speed sum carries simulation effect). -/
def speedBonusOf (buffs : List Buff) : ℚ :=
  (buffs.filter (fun b => b.btype == BuffType.speed)).foldl (fun a b => a + b.amount) 0

/-- The movement part of the player block of animate (lines 714-773), for
the player object p: camera-relative input direction, acceleration /
friction lerp of the velocity, position integration, terrain-height easing,
movement-facing rotation with an occasional dust particle, and the camera
update (render only, dropped).  The quaternion applications on (0,0,-1) and
(1,0,0) reduce to the yaw sine / cosine expressions written below. -/
def playerMoveBody (env : Env) (delta : ℚ) (t : Tick) (p : GameEntity) : Tick :=
  let speedBonus := speedBonusOf p.stats.buffs
  let forward : Vec3 := ⟨-(env.sin t.st.cameraYaw), 0, -(env.cos t.st.cameraYaw)⟩
  let right : Vec3 := ⟨env.cos t.st.cameraYaw, 0, -(env.sin t.st.cameraYaw)⟩
  let tv0 : Vec3 := Vec3.zero
    + (if t.st.inputDirection.z < 0 then forward else Vec3.zero)
    - (if 0 < t.st.inputDirection.z then forward else Vec3.zero)
    - (if t.st.inputDirection.x < 0 then right else Vec3.zero)
    + (if 0 < t.st.inputDirection.x then right else Vec3.zero)
  let tv1 := if decide (0 < sqNorm tv0) then env.normalize tv0 else tv0
  let baseSpeed := p.stats.speed + speedBonus
  let moveSpeed := baseSpeed * 2
  let v' :=
    if decide (0 < sqNorm tv1) then
      lerpV t.st.playerVelocity (Vec3.scale moveSpeed tv1) (40 * delta / moveSpeed)
    else
      lerpV t.st.playerVelocity Vec3.zero (12 * delta)
  let pos1 := p.position + Vec3.scale delta v'
  let pos2 : Vec3 := { pos1 with
    y := lerp pos1.y (getHeight env pos1.x pos1.z TerrainClass.safe) (1 / 5) }
  let rot :=
    if decide (1 / 4 < sqNorm v') then
      let targetRot := env.atan2 v'.x v'.z
      let diff := env.wrap (targetRot - p.rotation)
      let r' := p.rotation + diff * (3 / 20)
      let d1 := drawRand t.rng
      let evs1 := if decide (d1.1 < 1 / 5) then
          t.evs ++ [GameEvent.impact pos2 "#ffffff33" 1]
        else t.evs
      (r', r', d1.2, evs1)
    else (p.rotation, p.meshRotation.y, t.rng, t.evs)
  let p' : GameEntity := { p with
    position := pos2
    rotation := rot.1
    meshRotation := { p.meshRotation with y := rot.2.1 } }
  { st := { setEntity t.st p' with playerVelocity := v' },
    rng := rot.2.2.1, evs := rot.2.2.2 }

/-- The player block of animate (lines 708-774): when a live player with a
mesh exists, the buff expiry filter runs first (line 712, an in-place
assignment to the player object), then the movement body operates on the
filtered player. -/
def playerPhase (env : Env) (now delta : ℚ) (t : Tick) : Tick :=
  match playerOf t.st with
  | none => t
  | some p =>
    if p.hasMesh && !p.isDead then
      playerMoveBody env delta t { p with stats := { p.stats with
        buffs := p.stats.buffs.filter (fun b => decide (now < b.endTime)) } }
    else t

/-- The buff expiry part of the player block on its own (line 712). -/
def buffExpiryPass (now : ℚ) (t : Tick) : Tick :=
  match playerOf t.st with
  | none => t
  | some p =>
    if p.hasMesh && !p.isDead then
      { t with st := setEntity t.st { p with stats := { p.stats with
          buffs := p.stats.buffs.filter (fun b => decide (now < b.endTime)) } } }
    else t

/-- The movement part of the player block on its own: the movement body on
the player as it currently stands (no expiry filter). -/
def playerMovePass (env : Env) (_now delta : ℚ) (t : Tick) : Tick :=
  match playerOf t.st with
  | none => t
  | some p =>
    if p.hasMesh && !p.isDead then playerMoveBody env delta t p
    else t

/-- One simulation tick, i.e. the simulation content of animate
(lines 704-787): delta clamped to 0.1, player block, ambient particles
(render only, dropped), AI pass, loot pass, and the shake decay. -/
def tick (env : Env) (now rawDelta : ℚ) (t : Tick) : Tick :=
  let delta := min rawDelta (1 / 10)
  let t1 := playerPhase env now delta t
  let t2 := updateAI env now delta t1
  let t3 := updateLoot env now delta t2
  { t3 with st := { t3.st with shakeIntensity :=
      if 0 < t3.st.shakeIntensity then t3.st.shakeIntensity * (17 / 20)
      else t3.st.shakeIntensity } }

/-- Modelled from the spec's words (claim C7): a tick whose phases run in the
order the claim states, namely player input integration and movement first
(on the buff list as it stands), then the per-enemy AI pass, then the loot
pass, and buff expiry last. -/
def tickClaimedOrder (env : Env) (now rawDelta : ℚ) (t : Tick) : Tick :=
  let delta := min rawDelta (1 / 10)
  let t1 := playerMovePass env now delta t
  let t2 := updateAI env now delta t1
  let t3 := updateLoot env now delta t2
  let t4 := buffExpiryPass now t3
  { t4 with st := { t4.st with shakeIntensity :=
      if 0 < t4.st.shakeIntensity then t4.st.shakeIntensity * (17 / 20)
      else t4.st.shakeIntensity } }

/-! ## Registry lemmas -/

theorem lookupEntity_id {st : EngineState} {i : String} {e : GameEntity}
    (h : lookupEntity st i = some e) : e.id = i := by
  unfold lookupEntity at h
  have := List.find?_some h
  simpa using this

theorem find?_update_eq (l : List GameEntity) (i : String) (e e' : GameEntity)
    (h : l.find? (fun x => x.id == i) = some e) (hid : e'.id = e.id) :
    (l.map (fun x => if x.id == e'.id then e' else x)).find? (fun x => x.id == i)
      = some e' := by
  induction l with
  | nil => simp at h
  | cons a tl ih =>
    simp only [List.find?_cons] at h
    by_cases ha : (a.id == i) = true
    · rw [ha] at h
      simp only [] at h
      injection h with he
      subst he
      have hai : a.id = i := by simpa using ha
      have hae : (a.id == e'.id) = true := by simp [hid]
      have hei : (e'.id == i) = true := by simp [hid, hai]
      simp only [List.map_cons, if_pos hae, List.find?_cons, hei]
    · have ha' : (a.id == i) = false := by simpa using ha
      rw [ha'] at h
      simp only [] at h
      have hei : e.id = i := by
        simpa using List.find?_some h
      have hane : (a.id == e'.id) = false := by
        have : ¬ a.id = e'.id := by
          rw [hid, hei]
          simpa using ha
        simpa using this
      have hane' : ¬ ((a.id == e'.id) = true) := by simp [hane]
      simp only [List.map_cons, if_neg hane', List.find?_cons, ha']
      exact ih h

theorem lookupEntity_setEntity_eq {st : EngineState} {i : String} {e e' : GameEntity}
    (h : lookupEntity st i = some e) (hid : e'.id = e.id) :
    lookupEntity (setEntity st e') i = some e' := by
  unfold lookupEntity setEntity at *
  exact find?_update_eq st.entities i e e' h hid

theorem find?_update_ne (l : List GameEntity) (i : String) (e' : GameEntity)
    (hne : ¬ e'.id = i) :
    (l.map (fun x => if x.id == e'.id then e' else x)).find? (fun x => x.id == i)
      = l.find? (fun x => x.id == i) := by
  induction l with
  | nil => simp
  | cons a tl ih =>
    by_cases hae : (a.id == e'.id) = true
    · have haid : a.id = e'.id := by simpa using hae
      have hai : (a.id == i) = false := by simp [haid, hne]
      have hei : (e'.id == i) = false := by simpa using hne
      simp only [List.map_cons, if_pos hae, List.find?_cons, hei, hai]
      exact ih
    · have hane : (a.id == e'.id) = false := by simpa using hae
      simp only [List.map_cons, if_neg hae, List.find?_cons]
      cases hai : (a.id == i) with
      | true => simp only []
      | false =>
        simp only []
        exact ih

theorem lookupEntity_setEntity_ne {st : EngineState} {i : String} {e' : GameEntity}
    (hne : ¬ e'.id = i) :
    lookupEntity (setEntity st e') i = lookupEntity st i := by
  unfold lookupEntity setEntity
  exact find?_update_ne st.entities i e' hne

theorem playerOf_setEntity_eq {st : EngineState} {p e' : GameEntity}
    (h : playerOf st = some p) (hid : e'.id = p.id) :
    playerOf (setEntity st e') = some e' := by
  unfold playerOf at *
  cases hpid : st.playerId with
  | none => rw [hpid] at h; exact absurd h (by simp)
  | some i =>
    rw [hpid] at h
    have : (setEntity st e').playerId = some i := by simp [setEntity, hpid]
    rw [this]
    exact lookupEntity_setEntity_eq h hid

theorem mem_setEntity {st : EngineState} {e x : GameEntity}
    (hx : x ∈ (setEntity st e).entities) : x = e ∨ x ∈ st.entities := by
  unfold setEntity at hx
  simp only [List.mem_map] at hx
  obtain ⟨a, ha, hax⟩ := hx
  by_cases h : (a.id == e.id) = true
  · left; rw [if_pos h] at hax; exact hax.symm
  · right; rw [if_neg h] at hax; exact hax ▸ ha

theorem setEntity_setEntity {st : EngineState} {a b : GameEntity}
    (h : b.id = a.id) : setEntity (setEntity st a) b = setEntity st b := by
  unfold setEntity
  simp only [List.map_map]
  congr 1
  apply List.map_congr_left
  intro x _
  by_cases hx : (x.id == a.id) = true
  · simp only [Function.comp, hx, if_pos]
    have : (a.id == b.id) = true := by simp [h]
    have hxb : (x.id == b.id) = true := by
      have := (beq_iff_eq (a := x.id) (b := a.id)).mp hx
      simp [this, h]
    simp [this, hxb]
  · have hxb : (x.id == b.id) = false := by
      rw [h] at *
      simpa using hx
    simp [Function.comp, hx, hxb]

/-! ## damagedEntity projections -/

theorem damagedEntity_hp (now amount : ℚ) (e : GameEntity) :
    (damagedEntity now amount e).stats.hp = e.stats.hp - effDamage now e amount := by
  simp only [damagedEntity]
  split_ifs <;> rfl

theorem damagedEntity_id (now amount : ℚ) (e : GameEntity) :
    (damagedEntity now amount e).id = e.id := by
  simp only [damagedEntity]
  split_ifs <;> rfl

theorem damagedEntity_isDead (now amount : ℚ) (e : GameEntity) :
    (damagedEntity now amount e).isDead
      = (if deadAfter now amount e then true else e.isDead) := by
  simp only [damagedEntity]
  split_ifs <;> rfl

theorem damagedEntity_maxHp (now amount : ℚ) (e : GameEntity) :
    (damagedEntity now amount e).stats.maxHp = e.stats.maxHp := by
  simp only [damagedEntity]
  split_ifs <;> rfl

theorem isStag_iff (now : ℚ) (e : GameEntity) :
    isStagOf now e = true ↔ (e.etype = EntityType.enemy ∧ now < orQ e.staggerEndTime) := by
  simp [isStagOf]

theorem effDamage_eq (now : ℚ) (e : GameEntity) (amount : ℚ) :
    effDamage now e amount
      = max 1 (amount *
          (if e.etype = EntityType.enemy ∧ now < orQ e.staggerEndTime then 3 / 2 else 1)
        - e.stats.defense * (1 / 5)) := by
  unfold effDamage
  by_cases h : e.etype = EntityType.enemy ∧ now < orQ e.staggerEndTime
  · rw [if_pos ((isStag_iff now e).mpr h), if_pos h]
  · rw [if_neg (fun hc => h ((isStag_iff now e).mp hc)), if_neg h]

/-- The registry after a processed damageEntity call holds the mutated
target under the target's id. -/
theorem damageEntity_lookup (now : ℚ) (id : String) (amount : ℚ) (t : Tick)
    (e : GameEntity) (he : lookupEntity t.st id = some e)
    (hd : e.isDead = false) (hm : e.hasMesh = true) :
    lookupEntity (damageEntity now id amount t).st id
      = some (damagedEntity now amount e) := by
  have hset : lookupEntity (setEntity t.st (damagedEntity now amount e)) id
      = some (damagedEntity now amount e) :=
    lookupEntity_setEntity_eq he (by rw [damagedEntity_id, lookupEntity_id he])
  simp only [damageEntity, he, hd, hm, Bool.not_true, Bool.false_eq_true, if_false]
  split_ifs <;> exact hset

/-- C1: for every processed damageEntity(id, raw) call (target registered,
not dead, with a mesh), the target's hp decreases by exactly
max(1, raw * m - defense * 0.2) with m = 1.5 when the target is an enemy
whose staggerEndTime lies in the future and m = 1.0 otherwise — for every
target kind, the player included. -/
theorem C1_damage_formula (now : ℚ) (id : String) (amount : ℚ) (t : Tick)
    (e : GameEntity) (he : lookupEntity t.st id = some e)
    (hd : e.isDead = false) (hm : e.hasMesh = true) :
    ∃ e', lookupEntity (damageEntity now id amount t).st id = some e' ∧
      e'.stats.hp = e.stats.hp -
        max 1 (amount *
            (if e.etype = EntityType.enemy ∧ now < orQ e.staggerEndTime then 3 / 2 else 1)
          - e.stats.defense * (1 / 5)) := by
  refine ⟨damagedEntity now amount e, damageEntity_lookup now id amount t e he hd hm, ?_⟩
  rw [damagedEntity_hp, effDamage_eq]

/-- Witness for C1, exercising both numeric examples of the specification:
raw = 10 against defense 20 deals 6 unstaggered and 11 staggered. -/
def witnessStats : EntityStats :=
  ⟨100, 100, 8, 10, 20, "Brute", false, []⟩

def witnessEnemy : GameEntity :=
  ⟨"e1", EntityType.enemy, ⟨0, 0, 0⟩, none, none, none, none, 0,
   witnessStats, false, true, ⟨0, 0, 0⟩, none, none⟩

def witnessEnemyStag : GameEntity :=
  { witnessEnemy with id := "e2", staggerEndTime := some 10 }

def witnessState : EngineState :=
  ⟨[witnessEnemy, witnessEnemyStag], [], none, Vec3.zero, Vec3.zero, 0, 0⟩

def witnessTick : Tick := ⟨witnessState, [1, 1, 1, 1], []⟩

theorem C1_damage_formula_witness :
    (∃ e', lookupEntity (damageEntity 5 "e1" 10 witnessTick).st "e1" = some e' ∧
      e'.stats.hp = witnessEnemy.stats.hp -
        max 1 (10 *
            (if witnessEnemy.etype = EntityType.enemy ∧
                5 < orQ witnessEnemy.staggerEndTime then 3 / 2 else 1)
          - witnessEnemy.stats.defense * (1 / 5)))
    ∧ (∃ e', lookupEntity (damageEntity 5 "e2" 10 witnessTick).st "e2" = some e' ∧
      e'.stats.hp = witnessEnemyStag.stats.hp -
        max 1 (10 *
            (if witnessEnemyStag.etype = EntityType.enemy ∧
                5 < orQ witnessEnemyStag.staggerEndTime then 3 / 2 else 1)
          - witnessEnemyStag.stats.defense * (1 / 5))) :=
  ⟨C1_damage_formula 5 "e1" 10 witnessTick witnessEnemy (by decide) (by decide) (by decide),
   C1_damage_formula 5 "e2" 10 witnessTick witnessEnemyStag (by decide) (by decide) (by decide)⟩

/-- C9: damageEntity is a no-op (state, random stream and event trail all
unchanged, and no failure is possible since the function is total) whenever
the id is unregistered, the target is already dead, or the target has no
mesh. -/
theorem C9_damage_noop (now : ℚ) (id : String) (amount : ℚ) (t : Tick)
    (h : lookupEntity t.st id = none
      ∨ ∃ e, lookupEntity t.st id = some e ∧ (e.isDead = true ∨ e.hasMesh = false)) :
    damageEntity now id amount t = t := by
  rcases h with h | ⟨e, he, hcase⟩
  · simp only [damageEntity, h]
  · rcases hcase with hd | hm
    · simp only [damageEntity, he, hd, if_true]
    · simp only [damageEntity, he, hm, Bool.not_false, if_true]
      split_ifs <;> rfl

theorem C9_damage_noop_witness :
    damageEntity 0 "ghost" 50 witnessTick = witnessTick
    ∧ damageEntity 0 "corpse" 50
        ⟨⟨[{ witnessEnemy with id := "corpse", isDead := true }], [], none,
          Vec3.zero, Vec3.zero, 0, 0⟩, [], []⟩
      = ⟨⟨[{ witnessEnemy with id := "corpse", isDead := true }], [], none,
          Vec3.zero, Vec3.zero, 0, 0⟩, [], []⟩ :=
  ⟨C9_damage_noop 0 "ghost" 50 witnessTick (Or.inl (by decide)),
   C9_damage_noop 0 "corpse" 50 _
     (Or.inr ⟨{ witnessEnemy with id := "corpse", isDead := true }, by decide, Or.inl rfl⟩)⟩

/-- C10: when the player entity is absent or dead, updateAI returns the
state unchanged — no enemy moves, attacks, repicks its patrol target or wait
timer, and no stagger-point decay happens, because the whole pass is
skipped. -/
theorem C10_ai_skipped (env : Env) (now delta : ℚ) (t : Tick)
    (h : playerOf t.st = none
      ∨ ∃ p, playerOf t.st = some p ∧ p.isDead = true) :
    updateAI env now delta t = t := by
  rcases h with h | ⟨p, hp, hd⟩
  · simp only [updateAI, h]
  · simp only [updateAI, hp, hd, if_true]

def witnessEnvId : Env :=
  ⟨fun a b => sqNorm (a - b), fun v => v, fun _ => 0, fun _ => 1,
   fun _ _ => 0, 0, fun d => d⟩

theorem C10_ai_skipped_witness :
    updateAI witnessEnvId 3 (1 / 10) witnessTick = witnessTick :=
  C10_ai_skipped witnessEnvId 3 (1 / 10) witnessTick (Or.inl (by decide))

theorem effDamage_ge_one (now : ℚ) (e : GameEntity) (amount : ℚ) :
    (1 : ℚ) ≤ effDamage now e amount :=
  le_max_left _ _

theorem lookupEntity_congr_entities {st st' : EngineState} (i : String)
    (h : st.entities = st'.entities) : lookupEntity st i = lookupEntity st' i := by
  unfold lookupEntity
  rw [h]

/-- A processed damageEntity call rewrites the registry exactly by writing
back the mutated target; the loot roll and shake only touch other fields. -/
theorem damageEntity_entities (now : ℚ) (id : String) (amount : ℚ) (t : Tick)
    (e : GameEntity) (he : lookupEntity t.st id = some e)
    (hd : e.isDead = false) (hm : e.hasMesh = true) :
    (damageEntity now id amount t).st.entities
      = (setEntity t.st (damagedEntity now amount e)).entities := by
  simp only [damageEntity, he, hd, hm, Bool.not_true, Bool.false_eq_true, if_false]
  split_ifs <;> rfl

/-- A processed damageEntity call appends exactly its event trail. -/
theorem damageEntity_evs (now : ℚ) (id : String) (amount : ℚ) (t : Tick)
    (e : GameEntity) (he : lookupEntity t.st id = some e)
    (hd : e.isDead = false) (hm : e.hasMesh = true) :
    (damageEntity now id amount t).evs = t.evs ++ damageEvents now amount e := by
  simp only [damageEntity, he, hd, hm, Bool.not_true, Bool.false_eq_true, if_false]
  split_ifs <;> rfl

theorem damagedEntity_staggerPoints (now amount : ℚ) (e : GameEntity)
    (hen : e.etype = EntityType.enemy) :
    (damagedEntity now amount e).staggerPoints
      = (if staggerTrig now amount e then some 0
         else some (orQ e.staggerPoints + effDamage now e amount)) := by
  simp only [damagedEntity, if_pos hen]
  split_ifs <;> rfl

theorem damagedEntity_staggerEndTime (now amount : ℚ) (e : GameEntity)
    (hen : e.etype = EntityType.enemy) :
    (damagedEntity now amount e).staggerEndTime
      = (if staggerTrig now amount e then some (now + 2) else e.staggerEndTime) := by
  simp only [damagedEntity, if_pos hen]
  split_ifs <;> rfl

theorem damageEvents_stagger_count (now amount : ℚ) (e : GameEntity) :
    (damageEvents now amount e).count (GameEvent.sfx "stagger")
      = if staggerTrig now amount e then 1 else 0 := by
  unfold damageEvents
  split_ifs <;> simp [List.count_append, List.count_cons, List.count_nil]

/-- C2 counterexample: hp is not clamped at 0.  An enemy at 5 hp and 0
defense hit for 10 raw damage ends at hp = -5, violating 0 ≤ hp. -/
def c2Enemy : GameEntity :=
  { witnessEnemy with
    id := "c2"
    stats := { witnessStats with hp := 5, defense := 0 } }

def c2Tick : Tick :=
  ⟨⟨[c2Enemy], [], none, Vec3.zero, Vec3.zero, 0, 0⟩, [1, 1, 1], []⟩

/-- C2 is false as stated: after this damageEntity call an entity with
hp < 0 sits in the registry. -/
theorem C2_hp_invariant_cex :
    ¬ (∀ x ∈ (damageEntity 0 "c2" 10 c2Tick).st.entities, 0 ≤ x.stats.hp) := by
  decide

/-- C2 amended: hp ≤ maxHp is preserved by damage (hp only decreases) and by
loot collection (healing caps at maxHp); after a processed damage call the
target's isDead holds exactly when its hp ≤ 0; isDead never reverts to
false under either operation.  The lower bound 0 ≤ hp does not hold: hp is
never clamped below (see the counterexample). -/
theorem playerOf_decomp {st : EngineState} {p : GameEntity}
    (h : playerOf st = some p) :
    ∃ j, st.playerId = some j ∧ lookupEntity st j = some p := by
  unfold playerOf at h
  cases hj : st.playerId with
  | none => rw [hj] at h; exact absurd h (by simp)
  | some j => rw [hj] at h; exact ⟨j, rfl, h⟩

theorem collectPlayer_id (now : ℚ) (l : LootEntity) (p : GameEntity) :
    (collectPlayer now l p).id = p.id := by
  unfold collectPlayer
  split_ifs
  · rfl
  · split <;> rfl

theorem collectPlayer_isDead (now : ℚ) (l : LootEntity) (p : GameEntity) :
    (collectPlayer now l p).isDead = p.isDead := by
  unfold collectPlayer
  split_ifs
  · rfl
  · split <;> rfl

theorem C2_hp_invariant_amended (now : ℚ) (id : String) (amount : ℚ) (t : Tick)
    (e : GameEntity) (he : lookupEntity t.st id = some e)
    (hd : e.isDead = false) (hm : e.hasMesh = true)
    (hinv : ∀ x ∈ t.st.entities, x.stats.hp ≤ x.stats.maxHp) :
    (∀ x ∈ (damageEntity now id amount t).st.entities, x.stats.hp ≤ x.stats.maxHp)
    ∧ (∃ e', lookupEntity (damageEntity now id amount t).st id = some e'
        ∧ (e'.isDead = true ↔ e'.stats.hp ≤ 0))
    ∧ (∀ i' x x', lookupEntity t.st i' = some x →
        lookupEntity (damageEntity now id amount t).st i' = some x' →
        x.isDead = true → x'.isDead = true)
    ∧ (∀ (l : LootEntity) (t' : Tick) (p : GameEntity), playerOf t'.st = some p →
        (∀ x ∈ t'.st.entities, x.stats.hp ≤ x.stats.maxHp) →
        (∀ x ∈ (collectLoot now l t').st.entities, x.stats.hp ≤ x.stats.maxHp)
        ∧ ∀ i' x x', lookupEntity t'.st i' = some x →
            lookupEntity (collectLoot now l t').st i' = some x' →
            x.isDead = x'.isDead) := by
  have hent := damageEntity_entities now id amount t e he hd hm
  refine ⟨?_, ?_, ?_, ?_⟩
  · intro x hx
    rw [hent] at hx
    rcases mem_setEntity hx with rfl | hx'
    · rw [damagedEntity_hp, damagedEntity_maxHp]
      have hmem : e ∈ t.st.entities := List.mem_of_find?_eq_some he
      have h1 := hinv e hmem
      have h2 := effDamage_ge_one now e amount
      linarith
    · exact hinv x hx'
  · refine ⟨damagedEntity now amount e,
      damageEntity_lookup now id amount t e he hd hm, ?_⟩
    rw [damagedEntity_isDead, hd, damagedEntity_hp]
    unfold deadAfter
    by_cases h : e.stats.hp - effDamage now e amount ≤ 0 <;> simp [h]
  · intro i' x x' hx hx' hdead
    by_cases hii : i' = id
    · subst hii
      rw [hx] at he
      injection he with he'
      rw [← he', hdead] at hd
      exact absurd hd (by simp)
    · have hne : ¬ (damagedEntity now amount e).id = i' := by
        rw [damagedEntity_id, lookupEntity_id he]
        exact fun hc => hii hc.symm
      have hsame : lookupEntity (damageEntity now id amount t).st i'
          = lookupEntity t.st i' := by
        rw [lookupEntity_congr_entities i' hent]
        exact lookupEntity_setEntity_ne hne
      rw [hsame, hx] at hx'
      injection hx' with hxx
      rw [← hxx]
      exact hdead
  · intro l t' p hp hinv'
    have hpe : (collectLoot now l t').st.entities
        = (setEntity t'.st (collectPlayer now l p)).entities := by
      simp only [collectLoot, hp, removeLoot]
    have hpid := collectPlayer_id now l p
    have hpdead := collectPlayer_isDead now l p
    constructor
    · intro x hx
      rw [hpe] at hx
      rcases mem_setEntity hx with rfl | hx'
      · obtain ⟨j, hj, hpj⟩ := playerOf_decomp hp
        have hpmem : p ∈ t'.st.entities := List.mem_of_find?_eq_some hpj
        have hb := hinv' p hpmem
        unfold collectPlayer
        split_ifs
        · exact min_le_left _ _
        · split <;> exact hb
      · exact hinv' x hx'
    · intro i' x x' hx hx'
      have hlook : lookupEntity (collectLoot now l t').st i'
          = lookupEntity (setEntity t'.st (collectPlayer now l p)) i' :=
        lookupEntity_congr_entities i' hpe
      by_cases hii : i' = p.id
      · have hxp : x = p := by
          obtain ⟨j, hj, hpj⟩ := playerOf_decomp hp
          have hpj' : p.id = j := lookupEntity_id hpj
          rw [hii, hpj', hpj] at hx
          exact (Option.some.inj hx).symm
        have hres : lookupEntity (setEntity t'.st (collectPlayer now l p)) i'
            = some (collectPlayer now l p) :=
          lookupEntity_setEntity_eq hx (by rw [hpid, hxp])
        rw [hlook, hres] at hx'
        injection hx' with h
        rw [← h, hpdead, hxp]
      · have hne : ¬ (collectPlayer now l p).id = i' := by
          rw [hpid]
          exact fun hc => hii hc.symm
        rw [hlook, lookupEntity_setEntity_ne hne, hx] at hx'
        injection hx' with h
        rw [← h]

/-- Witness for the amended C2 at a concrete damaged enemy: the registry
holds the target with isDead exactly reflecting hp ≤ 0. -/
theorem C2_hp_invariant_amended_witness :
    ∃ e', lookupEntity (damageEntity 5 "e1" 10 witnessTick).st "e1" = some e'
      ∧ (e'.isDead = true ↔ e'.stats.hp ≤ 0) :=
  (C2_hp_invariant_amended 5 "e1" 10 witnessTick witnessEnemy
    (by decide) (by decide) (by decide) (by decide)).2.1

/-! ## C3: stagger accumulation and trigger -/

/-- C3 counterexample state: an already-staggered enemy
(staggerEndTime = 10 > now = 5) holding 3 stagger points. -/
def c3Enemy : GameEntity :=
  { witnessEnemy with
    id := "c3"
    staggerEndTime := some 10
    staggerPoints := some 3
    stats := { witnessStats with defense := 0 } }

def c3Tick : Tick :=
  ⟨⟨[c3Enemy], [], none, Vec3.zero, Vec3.zero, 0, 0⟩, [1, 1, 1], []⟩

/-- C3 is false as stated: a hit on an already-staggered enemy still adds
its effective damage to staggerPoints (line 470 runs unconditionally), here
3 + max(1, 10 * 1.5 - 0) = 18 instead of staying at 3. -/
theorem C3_stagger_cex :
    isStagOf 5 c3Enemy = true
    ∧ c3Enemy.staggerPoints = some 3
    ∧ (lookupEntity (damageEntity 5 "c3" 10 c3Tick).st "c3").map
        (fun x => x.staggerPoints) = some (some 18) := by
  decide

/-- C3 amended: for every processed damage application to an enemy target
the effective damage is always added to staggerPoints (staggered or not);
with threshold = maxHp * 0.25 + defense * 0.5, when the accumulated points
reach the threshold while the enemy is not already staggered, exactly one
stagger event is emitted, staggerEndTime is set to now + 2.0 and
staggerPoints resets to 0; an already-staggered enemy accumulates points
but triggers nothing. -/
theorem C3_stagger_amended (now : ℚ) (id : String) (amount : ℚ) (t : Tick)
    (e : GameEntity) (he : lookupEntity t.st id = some e)
    (hd : e.isDead = false) (hm : e.hasMesh = true)
    (hen : e.etype = EntityType.enemy) :
    staggerThreshold e = e.stats.maxHp * (1 / 4) + e.stats.defense * (1 / 2)
    ∧ ∃ e', lookupEntity (damageEntity now id amount t).st id = some e'
      ∧ (isStagOf now e = true →
          e'.staggerPoints = some (orQ e.staggerPoints + effDamage now e amount)
          ∧ e'.staggerEndTime = e.staggerEndTime
          ∧ (damageEntity now id amount t).evs.count (GameEvent.sfx "stagger")
              = t.evs.count (GameEvent.sfx "stagger"))
      ∧ (isStagOf now e = false →
          (staggerThreshold e ≤ orQ e.staggerPoints + effDamage now e amount →
            e'.staggerPoints = some 0
            ∧ e'.staggerEndTime = some (now + 2)
            ∧ (damageEntity now id amount t).evs.count (GameEvent.sfx "stagger")
                = t.evs.count (GameEvent.sfx "stagger") + 1)
          ∧ (¬ staggerThreshold e ≤ orQ e.staggerPoints + effDamage now e amount →
            e'.staggerPoints = some (orQ e.staggerPoints + effDamage now e amount)
            ∧ e'.staggerEndTime = e.staggerEndTime
            ∧ (damageEntity now id amount t).evs.count (GameEvent.sfx "stagger")
                = t.evs.count (GameEvent.sfx "stagger"))) := by
  have hevs := damageEntity_evs now id amount t e he hd hm
  have hcount : (damageEntity now id amount t).evs.count (GameEvent.sfx "stagger")
      = t.evs.count (GameEvent.sfx "stagger")
        + (if staggerTrig now amount e then 1 else 0) := by
    rw [hevs, List.count_append, damageEvents_stagger_count]
  refine ⟨rfl, damagedEntity now amount e,
    damageEntity_lookup now id amount t e he hd hm, ?_, ?_⟩
  · intro hstag
    have htrig : staggerTrig now amount e = false := by
      simp [staggerTrig, hstag]
    rw [damagedEntity_staggerPoints now amount e hen,
      damagedEntity_staggerEndTime now amount e hen, htrig, hcount, htrig]
    simp
  · intro hstag
    constructor
    · intro hth
      have htrig : staggerTrig now amount e = true := by
        simp [staggerTrig, hen, hth, hstag]
      rw [damagedEntity_staggerPoints now amount e hen,
        damagedEntity_staggerEndTime now amount e hen, htrig, hcount, htrig]
      simp
    · intro hth
      have htrig : staggerTrig now amount e = false := by
        simp [staggerTrig, hth]
      rw [damagedEntity_staggerPoints now amount e hen,
        damagedEntity_staggerEndTime now amount e hen, htrig, hcount, htrig]
      simp

/-- Witness for C3: the spec's own example enemy (maxHp 100, defense 20,
threshold 35), unstaggered, hit for raw 100 (effective 96 ≥ 35): the
conjunction instantiates and every hypothesis is discharged concretely. -/
theorem C3_stagger_amended_witness :
    staggerThreshold witnessEnemy
      = witnessEnemy.stats.maxHp * (1 / 4) + witnessEnemy.stats.defense * (1 / 2)
    ∧ ∃ e', lookupEntity (damageEntity 5 "e1" 100 witnessTick).st "e1" = some e'
      ∧ (isStagOf 5 witnessEnemy = true →
          e'.staggerPoints = some (orQ witnessEnemy.staggerPoints + effDamage 5 witnessEnemy 100)
          ∧ e'.staggerEndTime = witnessEnemy.staggerEndTime
          ∧ (damageEntity 5 "e1" 100 witnessTick).evs.count (GameEvent.sfx "stagger")
              = witnessTick.evs.count (GameEvent.sfx "stagger"))
      ∧ (isStagOf 5 witnessEnemy = false →
          (staggerThreshold witnessEnemy
              ≤ orQ witnessEnemy.staggerPoints + effDamage 5 witnessEnemy 100 →
            e'.staggerPoints = some 0
            ∧ e'.staggerEndTime = some (5 + 2)
            ∧ (damageEntity 5 "e1" 100 witnessTick).evs.count (GameEvent.sfx "stagger")
                = witnessTick.evs.count (GameEvent.sfx "stagger") + 1)
          ∧ (¬ staggerThreshold witnessEnemy
                ≤ orQ witnessEnemy.staggerPoints + effDamage 5 witnessEnemy 100 →
            e'.staggerPoints = some (orQ witnessEnemy.staggerPoints + effDamage 5 witnessEnemy 100)
            ∧ e'.staggerEndTime = witnessEnemy.staggerEndTime
            ∧ (damageEntity 5 "e1" 100 witnessTick).evs.count (GameEvent.sfx "stagger")
                = witnessTick.evs.count (GameEvent.sfx "stagger"))) :=
  C3_stagger_amended 5 "e1" 100 witnessTick witnessEnemy
    (by decide) (by decide) (by decide) (by decide)

/-! ## C8: buff expiry -/

/-- A live player carrying a single power buff that ends at t0 + 30. -/
def buffPlayer (t0 : ℚ) : GameEntity :=
  ⟨"player", EntityType.player, ⟨0, 0, 0⟩, none, none, none, none, 0,
   ⟨100, 100, 5, 10, 5, "Hero", false, [⟨BuffType.power, 10, t0 + 30⟩]⟩,
   false, true, ⟨0, 0, 0⟩, none, none⟩

def buffTickAt (t0 : ℚ) : Tick :=
  ⟨⟨[buffPlayer t0], [], some "player", Vec3.zero, Vec3.zero, 0, 0⟩, [], []⟩

/-- C8: after the buff-expiry pass of a tick (line 712), the player's buff
list holds no buff with endTime ≤ now; concretely a buff ending at t0 + 30
is still present when the pass runs at t0 + 29.9 and gone at t0 + 30.1. -/
theorem C8_buff_expiry (now : ℚ) (t : Tick) (p p' : GameEntity)
    (hp : playerOf t.st = some p) (hm : p.hasMesh = true) (hd : p.isDead = false)
    (hp' : playerOf (buffExpiryPass now t).st = some p') :
    (∀ b ∈ p'.stats.buffs, ¬ b.endTime ≤ now)
    ∧ (∀ t0 : ℚ,
        (playerOf (buffExpiryPass (t0 + 299 / 10) (buffTickAt t0)).st).map
          (fun q => q.stats.buffs) = some [⟨BuffType.power, 10, t0 + 30⟩]
        ∧ (playerOf (buffExpiryPass (t0 + 301 / 10) (buffTickAt t0)).st).map
          (fun q => q.stats.buffs) = some []) := by
  constructor
  · intro b hb
    have hguard : (p.hasMesh && !p.isDead) = true := by simp [hm, hd]
    have hres : playerOf (buffExpiryPass now t).st
        = some { p with stats := { p.stats with
            buffs := p.stats.buffs.filter (fun b => decide (now < b.endTime)) } } := by
      simp only [buffExpiryPass, hp, hguard, if_true]
      exact playerOf_setEntity_eq hp rfl
    rw [hres] at hp'
    injection hp' with hpp
    rw [← hpp] at hb
    simp only [List.mem_filter, decide_eq_true_eq] at hb
    exact not_le_of_lt hb.2
  · intro t0
    have h1 : t0 + 299 / 10 < t0 + 30 := by norm_num
    have h2 : ¬ (t0 + 301 / 10 < t0 + 30) := by norm_num
    constructor
    · simp [buffExpiryPass, buffTickAt, buffPlayer, playerOf, lookupEntity,
        setEntity, List.filter, h1]
    · simp [buffExpiryPass, buffTickAt, buffPlayer, playerOf, lookupEntity,
        setEntity, List.filter, h2]

theorem C8_buff_expiry_witness :
    (∀ b ∈ ((buffPlayer 0).stats.buffs.filter
        (fun b => decide ((5 : ℚ) < b.endTime))), ¬ b.endTime ≤ (5 : ℚ))
    ∧ (playerOf (buffExpiryPass (0 + 299 / 10) (buffTickAt 0)).st).map
        (fun q => q.stats.buffs) = some [⟨BuffType.power, 10, 0 + 30⟩] := by
  have h := C8_buff_expiry 5 (buffTickAt 0) (buffPlayer 0)
    { buffPlayer 0 with stats := { (buffPlayer 0).stats with
        buffs := (buffPlayer 0).stats.buffs.filter
          (fun b => decide ((5 : ℚ) < b.endTime)) } }
    (by decide) (by decide) (by decide) (by decide)
  exact ⟨h.1, (h.2 0).1⟩

/-! ## C4: behavior mode priority -/

/-- Modelled from the spec's words (claim C4): the per-mode conditions, in
the claim's own phrasing. -/
def modeCheck (s : Bool) (h d : ℚ) : AIMode → Bool
  | AIMode.staggered => s
  | AIMode.flee => decide (h < 3 / 10) && decide (d < 20)
  | AIMode.chase => decide (10 < d) && decide (d < 45)
  | AIMode.attack => decide (d ≤ 10)
  | AIMode.patrol => true

/-- Modelled from the spec's words (claim C4): the strict priority order. -/
def priorityOrder : List AIMode :=
  [AIMode.staggered, AIMode.flee, AIMode.chase, AIMode.attack, AIMode.patrol]

/-- Modelled from the spec's words (claim C4): the first mode in the list
whose condition holds wins; nothing later runs. -/
def firstMatching (s : Bool) (h d : ℚ) : List AIMode → AIMode
  | [] => AIMode.patrol
  | m :: ms => if modeCheck s h d m then m else firstMatching s h d ms

theorem staggerDecay_fields (delta : ℚ) (e : GameEntity) :
    (staggerDecay delta e).id = e.id
    ∧ (staggerDecay delta e).position = e.position
    ∧ (staggerDecay delta e).lastAttackTime = e.lastAttackTime
    ∧ (staggerDecay delta e).patrolTarget = e.patrolTarget
    ∧ (staggerDecay delta e).waitTimer = e.waitTimer
    ∧ (staggerDecay delta e).staggerEndTime = e.staggerEndTime := by
  unfold staggerDecay
  split_ifs <;> exact ⟨rfl, rfl, rfl, rfl, rfl, rfl⟩

/-- C4: per tick and per live non-dead enemy, the source's branch chain
selects exactly the first matching mode of the strict priority order
staggered > flee > chase > attack > patrol, with the claimed speed
multipliers (1.4, 1.1, 0.3, 0.5), and in the staggered mode the enemy
neither moves nor attacks (position, attack cooldown, patrol state and
event trail are untouched; only the sway animation runs). -/
theorem C4_ai_priority :
    (∀ (s : Bool) (h d : ℚ), aiMode s h d = firstMatching s h d priorityOrder)
    ∧ (modeSpeedMult AIMode.flee = 7 / 5 ∧ modeSpeedMult AIMode.chase = 11 / 10
       ∧ modeSpeedMult AIMode.attack = 3 / 10 ∧ modeSpeedMult AIMode.patrol = 1 / 2)
    ∧ (∀ (env : Env) (now delta : ℚ) (i : String) (t : Tick) (e p : GameEntity),
        lookupEntity t.st i = some e → playerOf t.st = some p →
        e.etype = EntityType.enemy → e.isDead = false → e.hasMesh = true →
        now < orQ e.staggerEndTime →
        ∃ e', lookupEntity (updateAIEntity env now delta i t).st i = some e'
          ∧ e'.position = e.position
          ∧ e'.lastAttackTime = e.lastAttackTime
          ∧ e'.patrolTarget = e.patrolTarget
          ∧ e'.waitTimer = e.waitTimer
          ∧ (updateAIEntity env now delta i t).evs = t.evs
          ∧ (updateAIEntity env now delta i t).rng = t.rng) := by
  refine ⟨?_, ⟨rfl, rfl, rfl, rfl⟩, ?_⟩
  · intro s h d
    cases s with
    | true => simp [aiMode, firstMatching, priorityOrder, modeCheck]
    | false =>
      by_cases h1 : h < 3 / 10 <;> by_cases h2 : d < 20 <;>
        by_cases h3 : 10 < d <;> by_cases h4 : d < 45 <;> by_cases h5 : d ≤ 10 <;>
        simp [aiMode, firstMatching, priorityOrder, modeCheck, h1, h2, h3, h4, h5]
  · intro env now delta i t e p he hp hen hd hm hstag
    have hguard : (decide (e.etype = EntityType.enemy) && !e.isDead && e.hasMesh) = true := by
      simp [hen, hd, hm]
    have hfields := staggerDecay_fields delta e
    have hstag' : decide (now < orQ (staggerDecay delta e).staggerEndTime) = true := by
      rw [hfields.2.2.2.2.2]
      simpa using hstag
    refine ⟨{ staggerDecay delta e with meshRotation :=
        ⟨env.sin (now * 12) * (3 / 20),
         (staggerDecay delta e).meshRotation.y + delta * (1 / 2),
         env.cos (now * 10) * (3 / 20)⟩ }, ?_, ?_⟩
    · simp only [updateAIEntity, he, hp, hguard, if_true, hstag', aiMode, if_true]
      exact lookupEntity_setEntity_eq he (by
        show (staggerDecay delta e).id = e.id
        exact hfields.1)
    · exact ⟨hfields.2.1, hfields.2.2.1, hfields.2.2.2.1, hfields.2.2.2.2.1, by
        simp only [updateAIEntity, he, hp, hguard, if_true, hstag', aiMode, if_true], by
        simp only [updateAIEntity, he, hp, hguard, if_true, hstag', aiMode, if_true]⟩

def c4Player : GameEntity :=
  ⟨"player", EntityType.player, ⟨0, 0, 0⟩, none, none, none, none, 0,
   witnessStats, false, true, ⟨0, 0, 0⟩, none, none⟩

def c4Tick : Tick :=
  ⟨⟨[c4Player, witnessEnemyStag], [], some "player", Vec3.zero, Vec3.zero, 0, 0⟩,
   [1, 1, 1], []⟩

theorem C4_ai_priority_witness :
    aiMode false (1 / 2) 30 = firstMatching false (1 / 2) 30 priorityOrder
    ∧ ∃ e', lookupEntity (updateAIEntity witnessEnvId 5 (1 / 10) "e2" c4Tick).st "e2"
          = some e'
        ∧ e'.position = witnessEnemyStag.position
        ∧ e'.lastAttackTime = witnessEnemyStag.lastAttackTime
        ∧ e'.patrolTarget = witnessEnemyStag.patrolTarget
        ∧ e'.waitTimer = witnessEnemyStag.waitTimer
        ∧ (updateAIEntity witnessEnvId 5 (1 / 10) "e2" c4Tick).evs = c4Tick.evs
        ∧ (updateAIEntity witnessEnvId 5 (1 / 10) "e2" c4Tick).rng = c4Tick.rng :=
  ⟨C4_ai_priority.1 false (1 / 2) 30,
   C4_ai_priority.2.2 witnessEnvId 5 (1 / 10) "e2" c4Tick witnessEnemyStag c4Player
     (by decide) (by decide) (by decide) (by decide) (by decide) (by decide)⟩

/-! ## C7: tick phase order -/

theorem setEntity_lootEntities (st : EngineState) (e : GameEntity) :
    (setEntity st e).lootEntities = st.lootEntities := rfl

theorem setEntity_playerId (st : EngineState) (e : GameEntity) :
    (setEntity st e).playerId = st.playerId := rfl

theorem setEntity_inputDirection (st : EngineState) (e : GameEntity) :
    (setEntity st e).inputDirection = st.inputDirection := rfl

theorem setEntity_playerVelocity (st : EngineState) (e : GameEntity) :
    (setEntity st e).playerVelocity = st.playerVelocity := rfl

theorem setEntity_cameraYaw (st : EngineState) (e : GameEntity) :
    (setEntity st e).cameraYaw = st.cameraYaw := rfl

theorem setEntity_shakeIntensity (st : EngineState) (e : GameEntity) :
    (setEntity st e).shakeIntensity = st.shakeIntensity := rfl

/-- The movement body only reads the registry through its player argument,
so running it on a state into which that player object was just written
back gives the same result as running it on the original state. -/
theorem playerMoveBody_after_set (env : Env) (delta : ℚ) (t : Tick) (pB : GameEntity) :
    playerMoveBody env delta { t with st := setEntity t.st pB } pB
      = playerMoveBody env delta t pB := by
  simp only [playerMoveBody, setEntity_cameraYaw, setEntity_inputDirection,
    setEntity_playerVelocity, setEntity_lootEntities, setEntity_playerId,
    setEntity_shakeIntensity]
  congr 1
  congr 1
  exact congrArg EngineState.entities (setEntity_setEntity rfl)

/-- The inline player block decomposes into the buff-expiry step followed by
the pure movement step: expiry runs first, and movement reads the already
filtered buff list. -/
theorem playerPhase_decomp (env : Env) (now delta : ℚ) (t : Tick) :
    playerPhase env now delta t = playerMovePass env now delta (buffExpiryPass now t) := by
  cases hp : playerOf t.st with
  | none => simp only [playerPhase, buffExpiryPass, playerMovePass, hp]
  | some p =>
    by_cases hg : (p.hasMesh && !p.isDead) = true
    · have hpb : playerOf (setEntity t.st { p with stats := { p.stats with
          buffs := p.stats.buffs.filter (fun b => decide (now < b.endTime)) } })
          = some { p with stats := { p.stats with
            buffs := p.stats.buffs.filter (fun b => decide (now < b.endTime)) } } :=
        playerOf_setEntity_eq hp rfl
      simp only [playerPhase, buffExpiryPass, playerMovePass, hp, hg, if_true, hpb]
      exact (playerMoveBody_after_set env delta t _).symm
    · have hgf : (p.hasMesh && !p.isDead) = false := by simpa using hg
      simp only [playerPhase, buffExpiryPass, playerMovePass, hp, hgf,
        Bool.false_eq_true, if_false]

/-- C7 counterexample state: a live player with a speed buff that expired at
time 1 (the tick runs at time 2), moving forward with a non-zero current
velocity, so the order of buff expiry against movement is observable. -/
def c7Player : GameEntity :=
  ⟨"player", EntityType.player, ⟨0, 0, 0⟩, none, none, none, none, 0,
   ⟨100, 100, 5, 10, 5, "Hero", false, [⟨BuffType.speed, 100, 1⟩]⟩,
   false, true, ⟨0, 0, 0⟩, none, none⟩

def c7Tick : Tick :=
  ⟨⟨[c7Player], [], some "player", ⟨0, 0, -1⟩, ⟨0, 0, -4⟩, 0, 0⟩, [1, 1, 1, 1], []⟩

/-- C7 is false as stated: running the phases in the claimed order (player
movement first on the stale buff list, buff expiry last) yields a different
player velocity than the source's tick, because the source filters expired
buffs at the start of the player block, before movement integration. -/
theorem C7_tick_order_cex :
    (tick witnessEnvId 2 (1 / 10) c7Tick).st.playerVelocity
      ≠ (tickClaimedOrder witnessEnvId 2 (1 / 10) c7Tick).st.playerVelocity := by
  decide

/-- C7 amended: a tick clamps the elapsed time to at most 0.1 s and then
runs buff expiry first (inside the player block, before movement), then
player movement integration, then the per-enemy AI pass in registry
iteration order, then the loot pass, and finally the shake decay; buff
expiry is not last. -/
theorem C7_tick_order_amended (env : Env) (now rawDelta : ℚ) (t : Tick) :
    tick env now rawDelta t
      = (let t3 := updateLoot env now (min rawDelta (1 / 10))
           (updateAI env now (min rawDelta (1 / 10))
             (playerMovePass env now (min rawDelta (1 / 10))
               (buffExpiryPass now t)));
         { t3 with st := { t3.st with shakeIntensity :=
             if 0 < t3.st.shakeIntensity then t3.st.shakeIntensity * (17 / 20)
             else t3.st.shakeIntensity } }) := by
  simp only [tick, playerPhase_decomp]

/-! ## C5: nearest hostile -/

/-- Characterization of the getNearestHostile scan: either nothing
qualifying improved on the accumulator (which is then returned unchanged),
or the result is the first qualifying entity attaining the minimal distance
below the accumulator bound. -/
theorem nearestFold_char (env : Env) (p : GameEntity) (l : List GameEntity) :
    ∀ acc : Option GameEntity × ℚ,
      (l.foldl (nearestStep env p) acc = acc
        ∧ ∀ e ∈ l, hostileQual e = true → acc.2 ≤ env.dist e.position p.position)
      ∨ (∃ l1 b l2, l = l1 ++ b :: l2
          ∧ (l.foldl (nearestStep env p) acc).1 = some b
          ∧ (l.foldl (nearestStep env p) acc).2 = env.dist b.position p.position
          ∧ hostileQual b = true
          ∧ env.dist b.position p.position < acc.2
          ∧ (∀ e ∈ l1, hostileQual e = true →
              acc.2 ≤ env.dist e.position p.position
              ∨ env.dist b.position p.position < env.dist e.position p.position)
          ∧ (∀ e ∈ l, hostileQual e = true →
              env.dist b.position p.position ≤ env.dist e.position p.position)) := by
  induction l with
  | nil =>
    intro acc
    left
    exact ⟨rfl, by simp⟩
  | cons a tl ih =>
    intro acc
    rw [List.foldl_cons]
    by_cases hq : hostileQual a = true
    · by_cases hlt : env.dist a.position p.position < acc.2
      · have hstep : nearestStep env p acc a
            = (some a, env.dist a.position p.position) := by
          simp [nearestStep, hq, hlt]
        rw [hstep]
        rcases ih (some a, env.dist a.position p.position) with
          ⟨heq, hall⟩ | ⟨l1, b, l2, hsplit, h1, h2, hqb, hblt, hearly, hmin⟩
        · right
          refine ⟨[], a, tl, by simp, by rw [heq], by rw [heq], hq, hlt, by simp, ?_⟩
          intro e he hqe
          rcases List.mem_cons.mp he with rfl | hetl
          · exact le_refl _
          · exact hall e hetl hqe
        · right
          have hba : env.dist b.position p.position
              < env.dist a.position p.position := by simpa using hblt
          refine ⟨a :: l1, b, l2, by rw [hsplit, List.cons_append], h1, h2, hqb,
            lt_trans hba hlt, ?_, ?_⟩
          · intro e he hqe
            rcases List.mem_cons.mp he with rfl | hel1
            · exact Or.inr hba
            · rcases hearly e hel1 hqe with hc | hc
              · exact Or.inr (lt_of_lt_of_le hba (by simpa using hc))
              · exact Or.inr hc
          · intro e he hqe
            rcases List.mem_cons.mp he with rfl | hetl
            · exact le_of_lt hba
            · exact hmin e hetl hqe
      · have hge : acc.2 ≤ env.dist a.position p.position := le_of_not_lt hlt
        have hstep : nearestStep env p acc a = acc := by
          simp [nearestStep, hq, hlt]
        rw [hstep]
        rcases ih acc with
          ⟨heq, hall⟩ | ⟨l1, b, l2, hsplit, h1, h2, hqb, hblt, hearly, hmin⟩
        · left
          refine ⟨heq, ?_⟩
          intro e he hqe
          rcases List.mem_cons.mp he with rfl | hetl
          · exact hge
          · exact hall e hetl hqe
        · right
          refine ⟨a :: l1, b, l2, by rw [hsplit, List.cons_append], h1, h2, hqb, hblt, ?_, ?_⟩
          · intro e he hqe
            rcases List.mem_cons.mp he with rfl | hel1
            · exact Or.inl hge
            · exact hearly e hel1 hqe
          · intro e he hqe
            rcases List.mem_cons.mp he with rfl | hetl
            · exact le_trans (le_of_lt hblt) hge
            · exact hmin e hetl hqe
    · have hstep : nearestStep env p acc a = acc := by simp [nearestStep, hq]
      rw [hstep]
      rcases ih acc with
        ⟨heq, hall⟩ | ⟨l1, b, l2, hsplit, h1, h2, hqb, hblt, hearly, hmin⟩
      · left
        refine ⟨heq, ?_⟩
        intro e he hqe
        rcases List.mem_cons.mp he with rfl | hetl
        · exact absurd hqe hq
        · exact hall e hetl hqe
      · right
        refine ⟨a :: l1, b, l2, by rw [hsplit, List.cons_append], h1, h2, hqb, hblt, ?_, ?_⟩
        · intro e he hqe
          rcases List.mem_cons.mp he with rfl | hel1
          · exact absurd hqe hq
          · exact hearly e hel1 hqe
        · intro e he hqe
          rcases List.mem_cons.mp he with rfl | hetl
          · exact absurd hqe hq
          · exact hmin e hetl hqe

/-- C5: getNearestHostile(range) returns none when there is no player or
when no non-dead enemy stands strictly closer than range; otherwise it
returns a non-dead enemy at minimal distance, the first encountered in
registry order among ties (every earlier qualifying entity is strictly
farther). -/
theorem C5_nearest_hostile (env : Env) (range : ℚ) (st : EngineState) :
    (playerOf st = none → getNearestHostile env range st = none)
    ∧ (∀ p, playerOf st = some p →
        ((∀ e ∈ st.entities, hostileQual e = true →
            range ≤ env.dist e.position p.position) →
          getNearestHostile env range st = none)
        ∧ (∀ b, getNearestHostile env range st = some b →
            hostileQual b = true
            ∧ env.dist b.position p.position < range
            ∧ (∀ e ∈ st.entities, hostileQual e = true →
                env.dist b.position p.position ≤ env.dist e.position p.position)
            ∧ ∃ l1 l2, st.entities = l1 ++ b :: l2
                ∧ ∀ e ∈ l1, hostileQual e = true →
                    env.dist b.position p.position < env.dist e.position p.position)
        ∧ ((∃ e, e ∈ st.entities ∧ hostileQual e = true
              ∧ env.dist e.position p.position < range) →
            ∃ b, getNearestHostile env range st = some b)) := by
  constructor
  · intro h
    simp [getNearestHostile, h]
  · intro p hp
    have hchar := nearestFold_char env p st.entities ((none : Option GameEntity), range)
    have hgn : getNearestHostile env range st
        = (st.entities.foldl (nearestStep env p) ((none : Option GameEntity), range)).1 := by
      simp [getNearestHostile, hp]
    refine ⟨?_, ?_, ?_⟩
    · intro hall
      rcases hchar with ⟨heq, _⟩ | ⟨l1, b, l2, hsplit, h1, h2, hqb, hblt, hearly, hmin⟩
      · rw [hgn, heq]
      · exfalso
        have hb : b ∈ st.entities := by
          rw [hsplit]
          exact List.mem_append_right _ (List.mem_cons_self _ _)
        exact absurd (hall b hb hqb) (not_le_of_lt (by simpa using hblt))
    · intro b hb
      rcases hchar with ⟨heq, _⟩ | ⟨l1, b', l2, hsplit, h1, h2, hqb, hblt, hearly, hmin⟩
      · rw [hgn, heq] at hb
        exact absurd hb (by simp)
      · rw [hgn, h1] at hb
        injection hb with hbb
        subst hbb
        have hbr : env.dist b'.position p.position < range := by simpa using hblt
        refine ⟨hqb, hbr, hmin, l1, l2, hsplit, ?_⟩
        intro e hel1 hqe
        rcases hearly e hel1 hqe with hc | hc
        · exact lt_of_lt_of_le hbr (by simpa using hc)
        · exact hc
    · rintro ⟨e, hee, hqe, helt⟩
      rcases hchar with ⟨heq, hall⟩ | ⟨l1, b, l2, hsplit, h1, h2, hqb, hblt, hearly, hmin⟩
      · exact absurd (by simpa using hall e hee hqe) (not_le_of_lt helt)
      · exact ⟨b, by rw [hgn, h1]⟩

/-- C5 witness scenario: a far enemy (distance ≥ range), then two tied near
enemies; the scan returns the first of the tied pair. -/
def c5Near : GameEntity := { witnessEnemy with id := "n1", position := ⟨3, 0, 0⟩ }

def c5Near2 : GameEntity := { witnessEnemy with id := "n2", position := ⟨0, 0, 3⟩ }

def c5Far : GameEntity := { witnessEnemy with id := "f", position := ⟨30, 0, 0⟩ }

def c5St : EngineState :=
  ⟨[c4Player, c5Far, c5Near, c5Near2], [], some "player", Vec3.zero, Vec3.zero, 0, 0⟩

theorem C5_nearest_hostile_witness :
    hostileQual c5Near = true
    ∧ witnessEnvId.dist c5Near.position c4Player.position < 20
    ∧ (∀ e ∈ c5St.entities, hostileQual e = true →
        witnessEnvId.dist c5Near.position c4Player.position
          ≤ witnessEnvId.dist e.position c4Player.position)
    ∧ ∃ l1 l2, c5St.entities = l1 ++ c5Near :: l2
        ∧ ∀ e ∈ l1, hostileQual e = true →
            witnessEnvId.dist c5Near.position c4Player.position
              < witnessEnvId.dist e.position c4Player.position :=
  ((C5_nearest_hostile witnessEnvId 20 c5St).2 c4Player (by decide)).2.1
    c5Near (by decide)

/-! ## C6: loot pickup -/

/-- Ids of the live loot entities. -/
def lootIds (st : EngineState) : List String :=
  st.lootEntities.map (fun x => x.id)

theorem lootFloat_id (env : Env) (now : ℚ) (l : LootEntity) :
    (lootFloat env now l).id = l.id := rfl

theorem lootFloat_item (env : Env) (now : ℚ) (l : LootEntity) :
    (lootFloat env now l).item = l.item := rfl

theorem collectPlayer_position (now : ℚ) (l : LootEntity) (p : GameEntity) :
    (collectPlayer now l p).position = p.position := by
  unfold collectPlayer
  split_ifs
  · rfl
  · split <;> rfl

theorem playerOf_setLoot (st : EngineState) (l : LootEntity) :
    playerOf (setLoot st l) = playerOf st := rfl

theorem playerOf_removeLoot (st : EngineState) (i : String) :
    playerOf (removeLoot st i) = playerOf st := rfl

theorem lootIds_setLoot (st : EngineState) (l : LootEntity) :
    lootIds (setLoot st l) = lootIds st := by
  unfold lootIds setLoot
  simp only [List.map_map]
  apply List.map_congr_left
  intro x _
  by_cases h : (x.id == l.id) = true
  · have := (beq_iff_eq (a := x.id)).mp h
    simp [Function.comp, h, this]
  · simp [Function.comp, h]

theorem lootIds_setEntity (st : EngineState) (e : GameEntity) :
    lootIds (setEntity st e) = lootIds st := rfl

theorem removeLoot_not_mem (st : EngineState) (i : String) :
    i ∉ lootIds (removeLoot st i) := by
  unfold lootIds removeLoot
  simp only [List.mem_map, List.mem_filter]
  rintro ⟨x, ⟨_, hxne⟩, hxi⟩
  simp [hxi] at hxne

theorem lootIds_removeLoot_subset (st : EngineState) (i : String) :
    ∀ j, j ∈ lootIds (removeLoot st i) → j ∈ lootIds st := by
  intro j hj
  unfold lootIds removeLoot at *
  simp only [List.mem_map, List.mem_filter] at hj ⊢
  obtain ⟨x, ⟨hx, _⟩, hxi⟩ := hj
  exact ⟨x, hx, hxi⟩

theorem updateLootStep_ids_subset (env : Env) (now : ℚ) (i : String) (t : Tick) :
    ∀ j, j ∈ lootIds (updateLootStep env now i t).st → j ∈ lootIds t.st := by
  intro j hj
  unfold updateLootStep at hj
  cases hl : lookupLoot t.st i with
  | none => rw [hl] at hj; exact hj
  | some l0 =>
    rw [hl] at hj
    simp only [] at hj
    cases hp : playerOf (setLoot t.st (lootFloat env now l0)) with
    | none =>
      simp only [hp] at hj
      rw [show lootIds (setLoot t.st (lootFloat env now l0))
          = lootIds t.st from lootIds_setLoot t.st _] at hj
      exact hj
    | some p =>
      simp only [hp] at hj
      by_cases hd : decide (env.dist (lootFloat env now l0).position p.position < 4) = true
      · rw [if_pos hd] at hj
        simp only [collectLoot, playerOf_setLoot, hp] at hj
        have h1 := lootIds_removeLoot_subset
          (setEntity (setLoot t.st (lootFloat env now l0))
            (collectPlayer now (lootFloat env now l0) p)) (lootFloat env now l0).id j hj
        rw [lootIds_setEntity, lootIds_setLoot] at h1
        exact h1
      · rw [if_neg hd] at hj
        rw [show lootIds (setLoot t.st (lootFloat env now l0))
            = lootIds t.st from lootIds_setLoot t.st _] at hj
        exact hj

theorem updateLootStep_evs_mono (env : Env) (now : ℚ) (i : String) (t : Tick) :
    ∃ u, (updateLootStep env now i t).evs = t.evs ++ u := by
  unfold updateLootStep
  cases hl : lookupLoot t.st i with
  | none => exact ⟨[], by simp⟩
  | some l0 =>
    simp only []
    cases hp : playerOf (setLoot t.st (lootFloat env now l0)) with
    | none => simp only [hp]; exact ⟨[], by simp⟩
    | some p =>
      simp only [hp]
      by_cases hd : decide (env.dist (lootFloat env now l0).position p.position < 4) = true
      · rw [if_pos hd]
        simp only [collectLoot, playerOf_setLoot, hp]
        exact ⟨[GameEvent.sfx "pickup",
          GameEvent.impact (lootFloat env now l0).position
            (hexColor (lootFloat env now l0).item.color) 15,
          GameEvent.lootPickup (lootFloat env now l0).item], by simp⟩
      · rw [if_neg hd]
        exact ⟨[], by simp⟩

theorem updateLootStep_player (env : Env) (now : ℚ) (i : String) (t : Tick)
    (p : GameEntity) (hp : playerOf t.st = some p) :
    ∃ p', playerOf (updateLootStep env now i t).st = some p'
      ∧ p'.position = p.position ∧ p'.id = p.id := by
  unfold updateLootStep
  cases hl : lookupLoot t.st i with
  | none => exact ⟨p, hp, rfl, rfl⟩
  | some l0 =>
    simp only []
    have hps : playerOf (setLoot t.st (lootFloat env now l0)) = some p := by
      rw [playerOf_setLoot]; exact hp
    simp only [hps]
    by_cases hd : decide (env.dist (lootFloat env now l0).position p.position < 4) = true
    · rw [if_pos hd]
      simp only [collectLoot, playerOf_setLoot, hps]
      refine ⟨collectPlayer now (lootFloat env now l0) p, ?_,
        collectPlayer_position now _ p, collectPlayer_id now _ p⟩
      rw [playerOf_removeLoot]
      exact playerOf_setEntity_eq hps (collectPlayer_id now _ p)
    · rw [if_neg hd]
      exact ⟨p, hps, rfl, rfl⟩

theorem lookupLoot_id {st : EngineState} {i : String} {l : LootEntity}
    (h : lookupLoot st i = some l) : l.id = i := by
  unfold lookupLoot at h
  simpa using List.find?_some h

theorem find?_loot_update_ne (xs : List LootEntity) (j : String) (l : LootEntity)
    (hne : ¬ l.id = j) :
    (xs.map (fun x => if x.id == l.id then l else x)).find? (fun x => x.id == j)
      = xs.find? (fun x => x.id == j) := by
  induction xs with
  | nil => simp
  | cons a tl ih =>
    by_cases hae : (a.id == l.id) = true
    · have haid : a.id = l.id := by simpa using hae
      have hai : (a.id == j) = false := by simp [haid, hne]
      have hli : (l.id == j) = false := by simpa using hne
      simp only [List.map_cons, if_pos hae, List.find?_cons, hli, hai]
      exact ih
    · simp only [List.map_cons, if_neg hae, List.find?_cons]
      cases hai : (a.id == j) with
      | true => simp only []
      | false => simp only []; exact ih

theorem find?_loot_filter_ne (xs : List LootEntity) (i j : String) (hne : ¬ i = j) :
    (xs.filter (fun x => !(x.id == i))).find? (fun x => x.id == j)
      = xs.find? (fun x => x.id == j) := by
  induction xs with
  | nil => simp
  | cons a tl ih =>
    by_cases haj : (a.id == j) = true
    · have hji : (a.id == i) = false := by
        have haj' : a.id = j := by simpa using haj
        rw [haj']
        exact beq_eq_false_iff_ne.mpr (fun hc => hne hc.symm)
      simp only [List.filter_cons, hji, Bool.not_false, if_pos, List.find?_cons, haj]
    · cases hai : (a.id == i) with
      | true =>
        simp only [List.filter_cons, hai, Bool.not_true, Bool.false_eq_true, if_false]
        rw [ih]
        have haj' : (a.id == j) = false := by simpa using haj
        simp only [List.find?_cons, haj']
      | false =>
        have : (a.id == j) = false := by simpa using haj
        simp only [List.filter_cons, hai, Bool.not_false, if_pos, List.find?_cons, this]
        exact ih

theorem lookupLoot_setEntity (st : EngineState) (e : GameEntity) (j : String) :
    lookupLoot (setEntity st e) j = lookupLoot st j := rfl

theorem updateLootStep_keeps (env : Env) (now : ℚ) (i : String) (t : Tick)
    (j : String) (hne : ¬ i = j) :
    lookupLoot (updateLootStep env now i t).st j = lookupLoot t.st j := by
  unfold updateLootStep
  cases hl : lookupLoot t.st i with
  | none => rfl
  | some l0 =>
    have hl0 : l0.id = i := lookupLoot_id hl
    have hlF : (lootFloat env now l0).id = i := by rw [lootFloat_id]; exact hl0
    have hsetne : lookupLoot (setLoot t.st (lootFloat env now l0)) j
        = lookupLoot t.st j := by
      unfold lookupLoot setLoot
      rw [show (lootFloat env now l0).id = i from hlF]
      have := find?_loot_update_ne t.st.lootEntities j (lootFloat env now l0)
        (by rw [hlF]; exact hne)
      rw [hlF] at this
      exact this
    simp only []
    cases hp : playerOf (setLoot t.st (lootFloat env now l0)) with
    | none => simp only [hp]; exact hsetne
    | some p =>
      simp only [hp]
      by_cases hd : decide (env.dist (lootFloat env now l0).position p.position < 4) = true
      · rw [if_pos hd]
        simp only [collectLoot, playerOf_setLoot, hp]
        unfold removeLoot lookupLoot
        simp only []
        rw [show (lootFloat env now l0).id = i from hlF]
        rw [find?_loot_filter_ne _ i j hne]
        exact hsetne
      · rw [if_neg hd]
        exact hsetne

theorem find?_loot_of_mem_nodup {l : LootEntity} :
    ∀ (xs : List LootEntity), (xs.map (fun x => x.id)).Nodup → l ∈ xs →
      xs.find? (fun x => x.id == l.id) = some l := by
  intro xs
  induction xs with
  | nil => intro _ h; simp at h
  | cons a tl ih =>
    intro hnd hmem
    rw [List.map_cons, List.nodup_cons] at hnd
    rcases List.mem_cons.mp hmem with rfl | htl
    · rw [List.find?_cons]
      simp
    · have hane : (a.id == l.id) = false := by
        by_contra hc
        have : (a.id == l.id) = true := by
          cases h : (a.id == l.id) with
          | true => rfl
          | false => exact absurd h hc
        have haid : a.id = l.id := by simpa using this
        exact hnd.1 (haid ▸ List.mem_map_of_mem (fun x => x.id) htl)
      rw [List.find?_cons, hane]
      exact ih hnd.2 htl

theorem lookupLoot_of_mem_nodup {st : EngineState} {l : LootEntity}
    (hnd : (lootIds st).Nodup) (hmem : l ∈ st.lootEntities) :
    lookupLoot st l.id = some l :=
  find?_loot_of_mem_nodup st.lootEntities hnd hmem

theorem lootFold_evs_mono (env : Env) (now : ℚ) (x : GameEvent) :
    ∀ (ids : List String) (t : Tick), x ∈ t.evs →
      x ∈ (ids.foldl (fun acc i => updateLootStep env now i acc) t).evs := by
  intro ids
  induction ids with
  | nil => intro t h; exact h
  | cons i rest ih =>
    intro t h
    rw [List.foldl_cons]
    apply ih
    obtain ⟨u, hu⟩ := updateLootStep_evs_mono env now i t
    rw [hu]
    exact List.mem_append_left _ h

theorem lootFold_ids_absent (env : Env) (now : ℚ) (j : String) :
    ∀ (ids : List String) (t : Tick), j ∉ lootIds t.st →
      j ∉ lootIds ((ids.foldl (fun acc i => updateLootStep env now i acc) t)).st := by
  intro ids
  induction ids with
  | nil => intro t h; exact h
  | cons i rest ih =>
    intro t h
    rw [List.foldl_cons]
    apply ih
    intro hc
    exact h (updateLootStep_ids_subset env now i t j hc)

/-- Core of the updateLoot pass: once a loot entry within pickup range comes
up in the scan, it is collected — removed for good, with its pickup event
appended for good. -/
theorem lootFold_handles (env : Env) (now : ℚ) (l : LootEntity) :
    ∀ (ids : List String) (t : Tick) (p : GameEntity),
      playerOf t.st = some p →
      lookupLoot t.st l.id = some l →
      l.id ∈ ids →
      env.dist (lootFloat env now l).position p.position < 4 →
      l.id ∉ lootIds ((ids.foldl (fun acc i => updateLootStep env now i acc) t)).st
      ∧ GameEvent.lootPickup l.item
          ∈ (ids.foldl (fun acc i => updateLootStep env now i acc) t).evs := by
  intro ids
  induction ids with
  | nil =>
    intro t p _ _ hmem _
    exact absurd hmem (by simp)
  | cons i rest ih =>
    intro t p hp hlook hmem hdist
    rw [List.foldl_cons]
    by_cases hii : i = l.id
    · subst hii
      have hps : playerOf (setLoot t.st (lootFloat env now l)) = some p := by
        rw [playerOf_setLoot]
        exact hp
      have hstep : updateLootStep env now l.id t
          = collectLoot now (lootFloat env now l)
              { t with st := setLoot t.st (lootFloat env now l) } := by
        unfold updateLootStep
        simp only [hlook, hps]
        rw [if_pos (decide_eq_true hdist)]
      rw [hstep]
      have habs : l.id ∉ lootIds (collectLoot now (lootFloat env now l)
          { t with st := setLoot t.st (lootFloat env now l) }).st := by
        simp only [collectLoot, hps]
        have := removeLoot_not_mem
          (setEntity (setLoot t.st (lootFloat env now l))
            (collectPlayer now (lootFloat env now l) p)) (lootFloat env now l).id
        rw [lootFloat_id] at this
        exact this
      have hev : GameEvent.lootPickup l.item ∈ (collectLoot now (lootFloat env now l)
          { t with st := setLoot t.st (lootFloat env now l) }).evs := by
        simp only [collectLoot, hps, lootFloat_item]
        simp
      exact ⟨lootFold_ids_absent env now l.id rest _ habs,
        lootFold_evs_mono env now (GameEvent.lootPickup l.item) rest _ hev⟩
    · obtain ⟨p', hp', hpos, _⟩ := updateLootStep_player env now i t p hp
      have hlook' : lookupLoot (updateLootStep env now i t).st l.id = some l := by
        rw [updateLootStep_keeps env now i t l.id hii]
        exact hlook
      have hmem' : l.id ∈ rest := by
        rcases List.mem_cons.mp hmem with h | h
        · exact absurd h.symm hii
        · exact h
      have hdist' : env.dist (lootFloat env now l).position p'.position < 4 := by
        rw [hpos]
        exact hdist
      exact ih (updateLootStep env now i t) p' hp' hlook' hmem' hdist'

/-- C6: whenever a loot entity stands within pickup distance (< 4) of the
player during a loot pass, it is collected: a health item heals the player
up to the maxHp cap, a buff item appends a Buff with the catalog's kind and
amount ending 30 seconds later, a material item changes no stats, and in
every case the loot entity is removed and a pickup event carrying the item
is emitted. -/
theorem C6_loot_pickup :
    (∀ (now : ℚ) (l : LootEntity) (t : Tick) (p : GameEntity),
      playerOf t.st = some p →
      playerOf (collectLoot now l t).st = some (collectPlayer now l p)
      ∧ (l.item.ltype = LootType.health →
          (collectPlayer now l p).stats.hp = min p.stats.maxHp (p.stats.hp + l.item.value)
          ∧ (collectPlayer now l p).stats.buffs = p.stats.buffs)
      ∧ (∀ s, l.item.ltype = LootType.buff → l.item.subType = some s →
          (collectPlayer now l p).stats.buffs
            = p.stats.buffs ++ [⟨s, l.item.value, now + 30⟩]
          ∧ (collectPlayer now l p).stats.hp = p.stats.hp)
      ∧ (l.item.ltype = LootType.material → collectPlayer now l p = p)
      ∧ l.id ∉ lootIds (collectLoot now l t).st
      ∧ GameEvent.lootPickup l.item ∈ (collectLoot now l t).evs)
    ∧ (∀ (env : Env) (now delta : ℚ) (t : Tick) (p : GameEntity),
      playerOf t.st = some p →
      (lootIds t.st).Nodup →
      ∀ l ∈ t.st.lootEntities,
        env.dist (lootFloat env now l).position p.position < 4 →
        l.id ∉ lootIds (updateLoot env now delta t).st
        ∧ GameEvent.lootPickup l.item ∈ (updateLoot env now delta t).evs) := by
  constructor
  · intro now l t p hp
    refine ⟨?_, ?_, ?_, ?_, ?_, ?_⟩
    · simp only [collectLoot, hp]
      rw [playerOf_removeLoot]
      exact playerOf_setEntity_eq hp (collectPlayer_id now l p)
    · intro hlt
      unfold collectPlayer
      rw [if_pos hlt]
      exact ⟨rfl, rfl⟩
    · intro s hlt hst
      unfold collectPlayer
      rw [if_neg (by simp [hlt])]
      simp [hlt, hst]
    · intro hlt
      cases hst : l.item.subType <;> simp [collectPlayer, hlt, hst]
    · simp only [collectLoot, hp]
      exact removeLoot_not_mem _ _
    · simp only [collectLoot, hp]
      simp
  · intro env now delta t p hp hnd l hl hdist
    have hlook : lookupLoot t.st l.id = some l := lookupLoot_of_mem_nodup hnd hl
    have hmem : l.id ∈ t.st.lootEntities.map (fun x => x.id) :=
      List.mem_map_of_mem (fun x => x.id) hl
    have h := lootFold_handles env now l (t.st.lootEntities.map (fun x => x.id))
      t p hp hlook hmem hdist
    simpa only [updateLoot, hp] using h

def c6Loot : LootEntity :=
  ⟨"loot1", ⟨"Ancient Vitality", LootType.health, none, 40, 0xff3344⟩, ⟨1, 0, 0⟩⟩

def c6Tick : Tick :=
  ⟨⟨[c4Player], [c6Loot], some "player", Vec3.zero, Vec3.zero, 0, 0⟩, [1], []⟩

theorem C6_loot_pickup_witness :
    c6Loot.id ∉ lootIds (updateLoot witnessEnvId 0 (1 / 10) c6Tick).st
    ∧ GameEvent.lootPickup c6Loot.item
        ∈ (updateLoot witnessEnvId 0 (1 / 10) c6Tick).evs :=
  C6_loot_pickup.2 witnessEnvId 0 (1 / 10) c6Tick c4Player
    (by decide) (by decide) c6Loot (by decide) (by decide)

end Voxel
